import Mathlib

/-!
Shallow embedding of the Matter.js broadphase grid as patched in this
repository (src/physics/matter-js/lib/collision/Grid.js).

JavaScript numbers are modelled as exact rationals, grid coordinates as
integers, object identifiers as naturals.  JavaScript objects used as
hash maps (grid.buckets, grid.pairs) are modelled as association lists
in insertion order; JavaScript arrays as Lean lists.  A body reference
stored inside a bucket or a pair record is identified by the body's id
(the external contract gives every body a unique id), together with the
static flag that pair bookkeeping reads from it.
-/

set_option maxHeartbeats 1000000

/-- Axis-aligned bounding box of a body (body.bounds in the source). -/
structure Bounds where
  minX : ℚ
  maxX : ℚ
  minY : ℚ
  maxY : ℚ
deriving DecidableEq, Repr

/-- The fields of an external body that Grid.js reads: id, isStatic,
isSleeping and bounds. -/
structure Body where
  id : Nat
  isStatic : Bool
  isSleeping : Bool
  bounds : Bounds
deriving DecidableEq, Repr

/-- What a retained reference to a body exposes to the grid's bookkeeping:
its id (reference identity, ids being unique) and its static flag. -/
structure BRef where
  id : Nat
  isStatic : Bool
deriving DecidableEq, Repr

/-- The reference a bucket or pair record keeps to a body. -/
def Body.ref (b : Body) : BRef := ⟨b.id, b.isStatic⟩

/-- A rectangle of grid-cell coordinates (Grid._createRegion). -/
structure Region where
  startCol : ℤ
  endCol : ℤ
  startRow : ℤ
  endRow : ℤ
deriving DecidableEq, Repr

/-- World bounds (engine.world.bounds), read by the off-world test. -/
structure World where
  minX : ℚ
  maxX : ℚ
  minY : ℚ
  maxY : ℚ
deriving DecidableEq, Repr

/-- A pair record [bodyA, bodyB, count] as stored in grid.pairs. -/
abbrev PairRec : Type := BRef × BRef × ℤ

/-- Integer range lo..hi inclusive. -/
def intRange (lo hi : ℤ) : List ℤ :=
  (List.range (hi + 1 - lo).toNat).map (fun n : ℕ => lo + (n : ℤ))

/-- The cells of a region in the iteration order of Grid.update's double
loop: columns outer, rows inner. -/
def Region.cells (r : Region) : List (ℤ × ℤ) :=
  (intRange r.startCol r.endCol).flatMap
    (fun c => (intRange r.startRow r.endRow).map (fun rw => (c, rw)))

/-- Exact rational division written so that it evaluates by kernel
reduction; jsDiv_eq_div proves it equal to ordinary division on ℚ. -/
def jsDiv (a b : ℚ) : ℚ := Rat.divInt (a.num * b.den) (a.den * b.num)

/-- Floor of a rational, executable form; ratFloor_eq_floor proves it
equal to the mathematical floor. -/
def ratFloor (q : ℚ) : ℤ := q.num / q.den

/-- Lookup in an association list, first matching key wins (JavaScript
property read). -/
def alookup {α β : Type} [DecidableEq α] : List (α × β) → α → Option β
  | [], _ => none
  | (k, v) :: rest, a => if k = a then some v else alookup rest a

/-- Write a key in an association list: overwrite the first occurrence, or
append a fresh entry at the end (JavaScript property write, which keeps
insertion order for iteration). -/
def aset {α β : Type} [DecidableEq α] : List (α × β) → α → β → List (α × β)
  | [], a, v => [(a, v)]
  | (k, w) :: rest, a, v => if k = a then (a, v) :: rest else (k, w) :: aset rest a v

/-- Delete a key from an association list (JavaScript delete). -/
def adel {α β : Type} [DecidableEq α] : List (α × β) → α → List (α × β)
  | [], _ => []
  | (k, w) :: rest, a => if k = a then rest else (k, w) :: adel rest a

/-- The grid state (Grid.create), including the per-body persistent region
slot that the source stores on each body (body.region) but which is
logically owned by the grid; it is keyed here by body id. -/
structure Grid where
  buckets : List (ℤ × List BRef)
  freeBuckets : List (List BRef)
  pairs : List ((Nat × Nat) × PairRec)
  pairsList : List PairRec
  bucketWidth : ℚ
  bucketHeight : ℚ
  regions : List (Nat × Region)
deriving DecidableEq, Repr

namespace Grid

/-- Grid.create with default options: empty buckets, empty free pool,
empty pair table and list, 48 by 48 cells, no body has a region yet. -/
def create : Grid := ⟨[], [], [], [], 48, 48, []⟩

/-- Modelled from the spec: Pair.id (lib/collision/Pair.js is not part of
the sources provided), described as an order-independent key combining the
two object identifiers deterministically, with key a b = key b a. -/
def pairKey (a b : Nat) : Nat × Nat := if a ≤ b then (a, b) else (b, a)

/-- Grid._getBucketId: a single number encoding (column, row). -/
def _getBucketId (column row : ℤ) : ℤ := column * 1000000000 + row

/-- Grid._getRegion: floor division of the body's bounds by the cell size. -/
def _getRegion (g : Grid) (b : Body) : Region :=
  ⟨ratFloor (jsDiv b.bounds.minX g.bucketWidth),
   ratFloor (jsDiv b.bounds.maxX g.bucketWidth),
   ratFloor (jsDiv b.bounds.minY g.bucketHeight),
   ratFloor (jsDiv b.bounds.maxY g.bucketHeight)⟩

/-- Grid._regionUnion. -/
def _regionUnion (a b : Region) : Region :=
  ⟨min a.startCol b.startCol, max a.endCol b.endCol,
   min a.startRow b.startRow, max a.endRow b.endRow⟩

/-- The four-sided strict AABB rejection of Grid.update lines 87-89:
true when the body is entirely outside the world bounds. -/
def offWorld (w : World) (b : Body) : Bool :=
  b.bounds.maxX < w.minX || b.bounds.minX > w.maxX
    || b.bounds.maxY < w.minY || b.bounds.minY > w.maxY

/-- Membership test of a cell in a region (isInsideNewRegion /
isInsideOldRegion in Grid.update). -/
def inRegion (r : Region) (c rw : ℤ) : Bool :=
  c ≥ r.startCol && c ≤ r.endCol && rw ≥ r.startRow && rw ≤ r.endRow

/-- The body of the pair loop in Grid._bucketAddBody for one existing
occupant bodyB: skip self and static-static pairs, otherwise increment
the pair record's count or insert a fresh record with count 1. -/
def addPairsOne (body : BRef) (pairs : List ((Nat × Nat) × PairRec)) (bodyB : BRef) :
    List ((Nat × Nat) × PairRec) :=
  if body.id = bodyB.id ∨ (body.isStatic && bodyB.isStatic) then pairs
  else
    match alookup pairs (pairKey body.id bodyB.id) with
    | some (a, b, n) => aset pairs (pairKey body.id bodyB.id) (a, b, n + 1)
    | none => pairs ++ [(pairKey body.id bodyB.id, (body, bodyB, 1))]

/-- Grid._bucketAddBody: run the pair bookkeeping against the bucket's
contents before insertion, then append the body. -/
def _bucketAddBody (pairs : List ((Nat × Nat) × PairRec)) (bucket : List BRef)
    (body : BRef) : List ((Nat × Nat) × PairRec) × List BRef :=
  (bucket.foldl (addPairsOne body) pairs, bucket ++ [body])

/-- Swap-with-last removal at index i: bucket[i] = bucket[length-1];
bucket.length -= 1. -/
def swapRemove (bucket : List BRef) (i : Nat) : List BRef :=
  match bucket.getLast? with
  | some last => (bucket.set i last).dropLast
  | none => bucket

/-- Decrement step of Grid._bucketRemoveBody's loop for one remaining
occupant: decrement the pair count if the record exists. -/
def decPairOne (body : BRef) (pairs : List ((Nat × Nat) × PairRec)) (bodyB : BRef) :
    List ((Nat × Nat) × PairRec) :=
  match alookup pairs (pairKey body.id bodyB.id) with
  | some (a, b, n) => aset pairs (pairKey body.id bodyB.id) (a, b, n - 1)
  | none => pairs

/-- Grid._bucketRemoveBody: swap-with-last removal of the body (found by
reference, i.e. by id), then decrement pair counts against the remaining
occupants.  When the body is absent Common.indexOf returns -1: the write
to index -1 is invisible to the array and the length decrement drops the
last element; on an empty bucket we keep the bucket (the source would
throw there). -/
def _bucketRemoveBody (pairs : List ((Nat × Nat) × PairRec)) (bucket : List BRef)
    (body : BRef) : List ((Nat × Nat) × PairRec) × List BRef :=
  let bucket' :=
    match bucket.findIdx? (fun x => x.id == body.id) with
    | some i => swapRemove bucket i
    | none => bucket.dropLast
  (bucket'.foldl (decPairOne body) pairs, bucket')

/-- Grid._createBucket: pop a recycled bucket from the free pool when one
is available, otherwise allocate a fresh empty one; register it under the
bucket id.  Returns the bucket and the updated grid. -/
def _createBucket (g : Grid) (bucketId : ℤ) : List BRef × Grid :=
  match g.freeBuckets.getLast? with
  | some bk => (bk, { g with freeBuckets := g.freeBuckets.dropLast,
                             buckets := aset g.buckets bucketId bk })
  | none => ([], { g with buckets := aset g.buckets bucketId [] })

/-- The removal arm of Grid.update's cell loop: if the cell's bucket
exists, remove the body from it. -/
def removeStep (body : BRef) (bucketId : ℤ) (g : Grid) : Grid :=
  match alookup g.buckets bucketId with
  | some bucket =>
      let pb := _bucketRemoveBody g.pairs bucket body
      { g with pairs := pb.1, buckets := aset g.buckets bucketId pb.2 }
  | none => g

/-- The insertion arm of Grid.update's cell loop: fetch or create the
cell's bucket and add the body to it. -/
def addStep (body : BRef) (bucketId : ℤ) (g : Grid) : Grid :=
  match alookup g.buckets bucketId with
  | some bucket =>
      let pb := _bucketAddBody g.pairs bucket body
      { g with pairs := pb.1, buckets := aset g.buckets bucketId pb.2 }
  | none =>
      let bg := _createBucket g bucketId
      let pb := _bucketAddBody g.pairs bg.1 body
      { bg.2 with pairs := pb.1, buckets := aset bg.2.buckets bucketId pb.2 }

/-- One iteration of Grid.update's cell loop for the body being processed:
remove from buckets of cells inside the old region only, add to buckets of
cells that are newly covered (or all cells when the region was just created
or the update is forced). -/
def cellStep (body : BRef) (newRegion effOld : Region) (createRegion forceUpdate : Bool)
    (g : Grid) (cell : ℤ × ℤ) : Grid :=
  let bucketId := _getBucketId cell.1 cell.2
  let insideNew := inRegion newRegion cell.1 cell.2
  let insideOld := inRegion effOld cell.1 cell.2
  let g1 := if !insideNew && insideOld then removeStep body bucketId g else g
  if createRegion || (insideNew && !insideOld) || forceUpdate then
    addStep body bucketId g1
  else g1

/-- The per-body block of Grid.update: skip sleeping (unless forced) and
off-world bodies; recompute the region; when the region is new, changed or
the update forced, walk the union of old and new regions updating buckets,
then persist the new region.  Returns the updated grid and whether this
body changed the grid. -/
def updateBody (w : World) (forceUpdate : Bool) (g : Grid) (body : Body) :
    Grid × Bool :=
  if body.isSleeping && !forceUpdate then (g, false)
  else if offWorld w body then (g, false)
  else
    let newRegion := _getRegion g body
    let oldR := alookup g.regions body.id
    if oldR = none ∨ oldR ≠ some newRegion ∨ forceUpdate then
      let createRegion := oldR = none
      let union :=
        if oldR = none ∨ forceUpdate then newRegion
        else _regionUnion newRegion (oldR.getD newRegion)
      -- when the region is freshly created the source first sets
      -- body.region to newRegion, so the old-region test inside the loop
      -- then reads newRegion
      let effOld := oldR.getD newRegion
      let g' := union.cells.foldl
        (cellStep body.ref newRegion effOld createRegion forceUpdate) g
      ({ g' with regions := aset g'.regions body.id newRegion }, true)
    else (g, false)

/-- Grid._createActivePairsList: iterate the pair table; records with a
positive count are kept in the table and appended to the output list,
records with count below one are deleted from the table. -/
def _createActivePairsList (pairs : List ((Nat × Nat) × PairRec)) :
    List ((Nat × Nat) × PairRec) × List PairRec :=
  pairs.foldl
    (fun acc e => if 0 < e.2.2.2 then (acc.1 ++ [e], acc.2 ++ [e.2]) else acc)
    ([], [])

/-- The body loop of Grid.update: fold updateBody over the bodies,
accumulating the gridChanged flag. -/
def updatePhase (g : Grid) (bodies : List Body) (w : World) (forceUpdate : Bool) :
    Grid × Bool :=
  bodies.foldl
    (fun acc b =>
      let r := updateBody w forceUpdate acc.1 b
      (r.1, acc.2 || r.2))
    (g, false)

/-- Grid.update: process every body, then rebuild the active pairs list
only when some body changed the grid. -/
def update (g : Grid) (bodies : List Body) (w : World) (forceUpdate : Bool) : Grid :=
  let gc := updatePhase g bodies w forceUpdate
  if gc.2 then
    let pl := _createActivePairsList gc.1.pairs
    { gc.1 with pairs := pl.1, pairsList := pl.2 }
  else gc.1

/-- The number of grid buckets whose contents include both of two given
body ids (used to state the reference-counting property). -/
def sharedBucketCount (g : Grid) (a b : Nat) : Nat :=
  (g.buckets.filter
    (fun e => ((e.2.map BRef.id).contains a) && ((e.2.map BRef.id).contains b))).length

/-- Grid.clear: truncate every occupied bucket to empty and push it on the
free pool, empty the bucket map, the pair table and the pairs list.  The
per-body regions live on the bodies in the source and are not cleared. -/
def clear (g : Grid) : Grid :=
  let bf := g.buckets.foldl
    (fun (acc : List (ℤ × List BRef) × List (List BRef)) e =>
      (adel acc.1 e.1, acc.2 ++ [[]]))
    (g.buckets, g.freeBuckets)
  { g with buckets := bf.1, freeBuckets := bf.2, pairs := [], pairsList := [] }

/-- Every bucket holds at most one reference to any given body id. -/
def bucketsDupFree (g : Grid) : Prop :=
  ∀ k bk, alookup g.buckets k = some bk → (bk.map BRef.id).Nodup

/-- No pair record in the table pairs a body with itself. -/
def noSelfPairs (g : Grid) : Prop :=
  ∀ e ∈ g.pairs, e.2.1.id ≠ e.2.2.1.id

/-- No entry of a raw pair table pairs a body with itself. -/
def noSelfList (ps : List ((Nat × Nat) × PairRec)) : Prop :=
  ∀ e ∈ ps, e.2.1.id ≠ e.2.2.1.id

/-- No entry of a raw pair table involves the given body id. -/
def noPairsForList (ps : List ((Nat × Nat) × PairRec)) (x : Nat) : Prop :=
  ∀ e ∈ ps, e.2.1.id ≠ x ∧ e.2.2.1.id ≠ x

/-- The bucket registered for the given bucket id exists and contains a
reference with the given body id. -/
def memBucket (g : Grid) (k : ℤ) (x : Nat) : Prop :=
  ∃ bk, alookup g.buckets k = some bk ∧ x ∈ bk.map BRef.id


/-- The region's rows lie in [0, 10^9), the range on which the bucket id
encoding is injective in the row coordinate. -/
def rangedRegion (r : Region) : Prop :=
  0 ≤ r.startRow ∧ r.endRow < 1000000000

/-- Every stored per-body region is ranged. -/
def regionsRanged (g : Grid) : Prop :=
  ∀ i R, alookup g.regions i = some R → rangedRegion R

/-- Every bucket occupant is a tracked body, some cell of whose stored
region maps to this bucket's id. -/
def coherent (g : Grid) : Prop :=
  ∀ k bk r, alookup g.buckets k = some bk → r ∈ bk →
    ∃ R, alookup g.regions r.id = some R ∧ ∃ c ∈ R.cells, _getBucketId c.1 c.2 = k

/-- Every bucket in the free pool is empty. -/
def freeClean (g : Grid) : Prop := ∀ bk ∈ g.freeBuckets, bk = []

/-- The inductive invariant establishing the at-most-one-reference
property of buckets. -/
def GridInv (g : Grid) : Prop :=
  bucketsDupFree g ∧ coherent g ∧ regionsRanged g ∧ freeClean g

/-- The invariant carried through Grid.update's cell loop while body x is
being moved from region effOld to region nr, P being the cells already
processed: buckets stay duplicate-free, the free pool stays empty, the
region table is untouched, an occupant with id x sits only in buckets of
cells already switched to the new region or not yet removed from the old
one, and any other occupant is justified by its stored region. -/
def MidInv (x : Nat) (nr effOld : Region) (cr : Bool) (regs : List (Nat × Region))
    (P : List (ℤ × ℤ)) (g : Grid) : Prop :=
  bucketsDupFree g ∧ freeClean g ∧ g.regions = regs ∧
  (∀ k bk r, alookup g.buckets k = some bk → r ∈ bk →
    (r.id = x → ∃ c : ℤ × ℤ, _getBucketId c.1 c.2 = k ∧
       ((inRegion nr c.1 c.2 = true ∧ c ∈ P) ∨
        (cr = false ∧ inRegion effOld c.1 c.2 = true ∧ c ∉ P))) ∧
    (r.id ≠ x → ∃ R, alookup regs r.id = some R ∧
       ∃ c ∈ R.cells, _getBucketId c.1 c.2 = k))

/-- Grid states reachable through the public interface from a fresh grid. -/
inductive Reach : Grid → Prop
  | init : Reach create
  | step (g : Grid) (bodies : List Body) (w : World) (f : Bool) :
      Reach g → Reach (update g bodies w f)
  | stepClear (g : Grid) : Reach g → Reach (clear g)

/-- Grid states reachable without forced updates, by bodies whose regions
stay within the row range on which bucket ids are injective. -/
inductive CleanReachable : Grid → Prop
  | init : CleanReachable create
  | step (g : Grid) (bodies : List Body) (w : World) :
      CleanReachable g →
      (∀ b ∈ bodies, rangedRegion (_getRegion g b)) →
      CleanReachable (update g bodies w false)
  | stepClear (g : Grid) : CleanReachable g → CleanReachable (clear g)

/-- The body with the given id occurs in no bucket. -/
def bodyAbsent (g : Grid) (x : Nat) : Prop :=
  ∀ k bk, alookup g.buckets k = some bk → x ∉ bk.map BRef.id

/-- Neither the pair table nor the extracted pairs list holds any record
involving the given body id. -/
def noPairsFor (g : Grid) (x : Nat) : Prop :=
  (∀ e ∈ g.pairs, e.2.1.id ≠ x ∧ e.2.2.1.id ≠ x) ∧
  (∀ p ∈ g.pairsList, p.1.id ≠ x ∧ p.2.1.id ≠ x)

end Grid

/-- World bounds used by all the concrete scenarios below. -/
def wBig : World := ⟨0, 10000, 0, 10000⟩

/-- Scenario for the reference-counting claim: body 1 across three frames
(sharing three cells with body 2, then two, then none). -/
def c1A1 : Body := ⟨1, false, false, ⟨0, 40, 0, 140⟩⟩

def c1A2 : Body := ⟨1, false, false, ⟨0, 40, 0, 95⟩⟩

def c1A3 : Body := ⟨1, false, false, ⟨96, 136, 0, 95⟩⟩

def c1B : Body := ⟨2, false, false, ⟨0, 40, 0, 140⟩⟩

def c1Frame1 : Grid := Grid.update Grid.create [c1A1, c1B] wBig false

def c1Frame2 : Grid := Grid.update c1Frame1 [c1A2, c1B] wBig false

def c1Frame3 : Grid := Grid.update c1Frame2 [c1A3, c1B] wBig false

/-- Scenario for the duplicate-reference counterexample: a body within a
single cell, updated normally and then with forceUpdate while its region
is unchanged. -/
def c2X : Body := ⟨1, false, false, ⟨0, 40, 0, 40⟩⟩

def c2Frame1 : Grid := Grid.update Grid.create [c2X] wBig false

def c2Frame2 : Grid := Grid.update c2Frame1 [c2X] wBig true

/-- A one-bucket grid used to witness the clear/free-pool behaviour. -/
def c6G : Grid := ⟨[(0, [⟨1, false⟩])], [], [], [], 48, 48, []⟩

/-- Scenario for the off-world counterexample: bodies 1 and 2 share a
cell, then body 1 leaves the world while body 3 appears elsewhere. -/
def c8A : Body := ⟨1, false, false, ⟨0, 40, 0, 40⟩⟩

def c8AOff : Body := ⟨1, false, false, ⟨-200, -100, 0, 40⟩⟩

def c8B : Body := ⟨2, false, false, ⟨0, 40, 0, 40⟩⟩

def c8C : Body := ⟨3, false, false, ⟨500, 540, 500, 540⟩⟩

def c8Frame1 : Grid := Grid.update Grid.create [c8A, c8B] wBig false

def c8Frame2 : Grid := Grid.update c8Frame1 [c8AOff, c8B, c8C] wBig false

/-- A body whose right edge exactly touches the world's left edge. -/
def c10B : Body := ⟨7, false, false, ⟨-40, 0, 0, 40⟩⟩

theorem jsDiv_eq_div (a b : ℚ) : jsDiv a b = a / b := by
  unfold jsDiv
  rw [Rat.divInt_eq_div]
  push_cast
  conv_rhs => rw [← Rat.num_div_den a, ← Rat.num_div_den b]
  rw [div_eq_mul_inv ((a.num : ℚ) / a.den), inv_div, div_mul_div_comm]

theorem ratFloor_eq_floor (q : ℚ) : ratFloor q = ⌊q⌋ := (Rat.floor_def).symm

theorem alookup_aset_self {α β : Type} [DecidableEq α] (l : List (α × β)) (k : α) (v : β) :
    alookup (aset l k v) k = some v := by
  induction l with
  | nil => simp [aset, alookup]
  | cons e rest ih =>
      obtain ⟨a, b⟩ := e
      by_cases h : a = k
      · subst h; simp [aset, alookup]
      · simp [aset, alookup, h, ih]

theorem alookup_aset_ne {α β : Type} [DecidableEq α] (l : List (α × β)) (k k' : α) (v : β)
    (h : k' ≠ k) : alookup (aset l k v) k' = alookup l k' := by
  have hkk : ¬(k = k') := fun hh => h hh.symm
  induction l with
  | nil =>
      simp only [aset, alookup]
      rw [if_neg hkk]
  | cons e rest ih =>
      obtain ⟨a, b⟩ := e
      by_cases ha : a = k
      · subst ha
        simp [aset, alookup, hkk]
      · by_cases ha' : a = k'
        · subst ha'
          simp [aset, alookup, ha]
        · simp [aset, alookup, ha, ha', ih]

theorem mem_aset {α β : Type} [DecidableEq α] (l : List (α × β)) (k : α) (v : β)
    (e : α × β) : e ∈ aset l k v → e = (k, v) ∨ e ∈ l := by
  induction l with
  | nil => intro h; simpa [aset] using h
  | cons f rest ih =>
      obtain ⟨a, b⟩ := f
      intro h
      by_cases ha : a = k
      · subst ha
        rw [show aset ((a, b) :: rest) a v = (a, v) :: rest by simp [aset]] at h
        rcases List.mem_cons.mp h with h | h
        · exact Or.inl h
        · exact Or.inr (List.mem_cons_of_mem _ h)
      · simp only [aset, if_neg ha, List.mem_cons] at h
        rcases h with h | h
        · exact Or.inr (by simp [h])
        · rcases ih h with h' | h'
          · exact Or.inl h'
          · exact Or.inr (List.mem_cons_of_mem _ h')

theorem alookup_mem {α β : Type} [DecidableEq α] (l : List (α × β)) (k : α) (v : β) :
    alookup l k = some v → (k, v) ∈ l := by
  induction l with
  | nil => intro h; simp [alookup] at h
  | cons e rest ih =>
      obtain ⟨a, b⟩ := e
      intro h
      by_cases ha : a = k
      · subst ha
        have hb : b = v := by simpa [alookup] using h
        subst hb
        exact List.mem_cons_self _ _
      · simp only [alookup, if_neg ha] at h
        exact List.mem_cons_of_mem _ (ih h)

/-- C4: region computation is the pure floor-division function of the
bounds and the cell size; on bounds 0..47 with 48-by-48 cells it yields
the single cell (0,0), and maxX = 49 pushes endCol to 1. -/
theorem getRegion_floor_division :
    (∀ (g : Grid) (b : Body),
        Grid._getRegion g b =
          ⟨⌊b.bounds.minX / g.bucketWidth⌋, ⌊b.bounds.maxX / g.bucketWidth⌋,
           ⌊b.bounds.minY / g.bucketHeight⌋, ⌊b.bounds.maxY / g.bucketHeight⌋⟩) ∧
    Grid._getRegion Grid.create ⟨1, false, false, ⟨0, 47, 0, 47⟩⟩ = ⟨0, 0, 0, 0⟩ ∧
    (Grid._getRegion Grid.create ⟨1, false, false, ⟨47, 49, 0, 47⟩⟩).endCol = 1 := by
  refine ⟨fun g b => ?_, by decide, by decide⟩
  unfold Grid._getRegion
  simp [ratFloor_eq_floor, jsDiv_eq_div]

theorem bucketId_inj_of_ranged_rows {c1 r1 c2 r2 : ℤ}
    (h1 : 0 ≤ r1) (h2 : r1 < 1000000000) (h3 : 0 ≤ r2) (h4 : r2 < 1000000000)
    (h : Grid._getBucketId c1 r1 = Grid._getBucketId c2 r2) : c1 = c2 ∧ r1 = r2 := by
  unfold Grid._getBucketId at h
  omega

/-- C9 (amended): the cell identifier column * 10^9 + row is injective
once the row coordinates are restricted to [0, 10^9); with both
coordinates merely bounded in absolute value by the stride it is not. -/
theorem getBucketId_injective_on_ranged (c1 r1 c2 r2 : ℤ)
    (hc1 : -1000000000 < c1) (hc1' : c1 < 1000000000)
    (hc2 : -1000000000 < c2) (hc2' : c2 < 1000000000)
    (hr1 : 0 ≤ r1) (hr1' : r1 < 1000000000)
    (hr2 : 0 ≤ r2) (hr2' : r2 < 1000000000)
    (hne : (c1, r1) ≠ (c2, r2)) :
    Grid._getBucketId c1 r1 ≠ Grid._getBucketId c2 r2 := by
  intro h
  rcases bucketId_inj_of_ranged_rows hr1 hr1' hr2 hr2' h with ⟨e1, e2⟩
  exact hne (by simp [e1, e2])

theorem getBucketId_injective_on_ranged_witness :
    Grid._getBucketId 5 7 ≠ Grid._getBucketId 3 9 :=
  getBucketId_injective_on_ranged 5 7 3 9 (by decide) (by decide) (by decide) (by decide)
    (by decide) (by decide) (by decide) (by decide) (by decide)

/-- C9 counterexample: the coordinate pairs (1,-1) and (0, 999999999) are
distinct, both have column and row of magnitude below 10^9, yet they are
assigned the same bucket id. -/
theorem getBucketId_collision :
    Grid._getBucketId 1 (-1) = Grid._getBucketId 0 999999999 ∧
    ((1 : ℤ), (-1 : ℤ)) ≠ ((0 : ℤ), (999999999 : ℤ)) ∧
    (-1000000000 : ℤ) < 1 ∧ (1 : ℤ) < 1000000000 ∧
    (-1000000000 : ℤ) < -1 ∧ (-1 : ℤ) < 1000000000 ∧
    (-1000000000 : ℤ) < 0 ∧ (0 : ℤ) < 1000000000 ∧
    (-1000000000 : ℤ) < 999999999 ∧ (999999999 : ℤ) < 1000000000 := by decide

theorem createActivePairsList_go (l : List ((Nat × Nat) × PairRec)) :
    ∀ acc1 acc2,
      l.foldl (fun acc e => if 0 < e.2.2.2 then (acc.1 ++ [e], acc.2 ++ [e.2]) else acc)
          (acc1, acc2)
        = (acc1 ++ l.filter (fun e => 0 < e.2.2.2),
           acc2 ++ (l.filter (fun e => 0 < e.2.2.2)).map (fun e => e.2)) := by
  induction l with
  | nil => simp
  | cons e rest ih =>
      intro acc1 acc2
      by_cases h : 0 < e.2.2.2
      · simp only [List.foldl_cons, if_pos h, ih, List.filter_cons, h]
        simp
      · simp only [List.foldl_cons, if_neg h, ih, List.filter_cons]
        simp [h]

/-- C5: the active-pairs extraction keeps in the table exactly the records
with positive shared-cell-count, in iteration order, and returns them as
the output list; records with nonpositive count are deleted. -/
theorem createActivePairsList_spec (pairs : List ((Nat × Nat) × PairRec)) :
    Grid._createActivePairsList pairs
        = (pairs.filter (fun e => 0 < e.2.2.2),
           (pairs.filter (fun e => 0 < e.2.2.2)).map (fun e => e.2)) ∧
    (∀ e, e ∈ (Grid._createActivePairsList pairs).1 ↔ e ∈ pairs ∧ 0 < e.2.2.2) := by
  have h := createActivePairsList_go pairs [] []
  constructor
  · simpa [Grid._createActivePairsList] using h
  · intro e
    unfold Grid._createActivePairsList
    rw [h]
    simp [List.mem_filter]

theorem clear_fold :
    ∀ (l : List (ℤ × List BRef)) (fr : List (List BRef)),
      l.foldl (fun (acc : List (ℤ × List BRef) × List (List BRef)) e =>
          (adel acc.1 e.1, acc.2 ++ [[]])) (l, fr)
        = ([], fr ++ List.replicate l.length []) := by
  intro l
  induction l with
  | nil => simp
  | cons e rest ih =>
      intro fr
      obtain ⟨k, v⟩ := e
      have hdel : adel ((k, v) :: rest) k = rest := by simp [adel]
      simp only [List.foldl_cons, hdel, ih, List.length_cons]
      simp [List.replicate_succ]

/-- C6: after clear the pair table and pairs list are empty (so extraction
yields an empty sequence), the cell-to-bucket mapping is empty, every
previously occupied bucket is truncated to empty and pushed on the free
pool, and while the free pool is non-empty a subsequent bucket creation
pops from it instead of allocating. -/
theorem clear_spec (g : Grid) :
    (Grid.clear g).pairs = [] ∧
    (Grid.clear g).pairsList = [] ∧
    (Grid._createActivePairsList (Grid.clear g).pairs).2 = [] ∧
    (Grid.clear g).buckets = [] ∧
    (Grid.clear g).freeBuckets = g.freeBuckets ++ List.replicate g.buckets.length [] ∧
    (∀ (g' : Grid) (bid : ℤ), g'.freeBuckets ≠ [] →
      (Grid._createBucket g' bid).2.freeBuckets = g'.freeBuckets.dropLast ∧
      g'.freeBuckets.getLast? = some (Grid._createBucket g' bid).1 ∧
      (Grid._createBucket g' bid).2.buckets
        = aset g'.buckets bid (Grid._createBucket g' bid).1) := by
  have hfold := clear_fold g.buckets g.freeBuckets
  refine ⟨rfl, rfl, by simp [Grid._createActivePairsList, Grid.clear], ?_, ?_, ?_⟩
  · simp only [Grid.clear, hfold]
  · simp only [Grid.clear, hfold]
  · intro g' bid hne
    unfold Grid._createBucket
    cases h : g'.freeBuckets.getLast? with
    | none => exact absurd (List.getLast?_eq_none_iff.mp h) hne
    | some bk => simp

/-- C1: reference counting.  Bodies 1 and 2 share exactly three cells in
frame one: their pair record's count is 3 and matches the number of
buckets holding both.  After body 1 leaves one shared cell the count is 2
and the pair is still extracted.  After body 1 leaves all shared cells
the count reaches 0 at the end of the body pass, the pair is absent from
the extraction, and its table entry is deleted. -/
theorem pair_reference_count_scenario :
    (alookup c1Frame1.pairs (Grid.pairKey 1 2) = some (⟨2, false⟩, ⟨1, false⟩, 3) ∧
      Grid.sharedBucketCount c1Frame1 1 2 = 3 ∧
      (⟨2, false⟩, ⟨1, false⟩, (3 : ℤ)) ∈ c1Frame1.pairsList) ∧
    (alookup c1Frame2.pairs (Grid.pairKey 1 2) = some (⟨2, false⟩, ⟨1, false⟩, 2) ∧
      Grid.sharedBucketCount c1Frame2 1 2 = 2 ∧
      (⟨2, false⟩, ⟨1, false⟩, (2 : ℤ)) ∈ c1Frame2.pairsList) ∧
    (alookup (Grid.updatePhase c1Frame2 [c1A3, c1B] wBig false).1.pairs (Grid.pairKey 1 2)
        = some (⟨2, false⟩, ⟨1, false⟩, 0) ∧
      Grid.sharedBucketCount (Grid.updatePhase c1Frame2 [c1A3, c1B] wBig false).1 1 2 = 0 ∧
      alookup c1Frame3.pairs (Grid.pairKey 1 2) = none ∧
      c1Frame3.pairsList = []) := by decide

/-- C2 counterexample: after a normal update, a forced update of the same
body with unchanged region appends a second reference to the body's
bucket, violating the at-most-one-reference invariant. -/
theorem forced_update_duplicates_reference :
    alookup c2Frame2.buckets (Grid._getBucketId 0 0) = some [⟨1, false⟩, ⟨1, false⟩] ∧
    ¬ Grid.bucketsDupFree c2Frame2 := by
  constructor
  · decide
  · intro h
    exact absurd (h (Grid._getBucketId 0 0) [⟨1, false⟩, ⟨1, false⟩] (by decide)) (by decide)

theorem clear_spec_witness :
    (Grid.clear c6G).freeBuckets ≠ [] ∧
    ((Grid._createBucket (Grid.clear c6G) 5).2.freeBuckets
        = (Grid.clear c6G).freeBuckets.dropLast ∧
      (Grid.clear c6G).freeBuckets.getLast?
        = some (Grid._createBucket (Grid.clear c6G) 5).1 ∧
      (Grid._createBucket (Grid.clear c6G) 5).2.buckets
        = aset (Grid.clear c6G).buckets 5 (Grid._createBucket (Grid.clear c6G) 5).1) :=
  ⟨by decide, (clear_spec c6G).2.2.2.2.2 (Grid.clear c6G) 5 (by decide)⟩

theorem updateBody_unchanged (w : World) (g : Grid) (b : Body)
    (h : b.isSleeping = true ∨ Grid.offWorld w b = true
        ∨ alookup g.regions b.id = some (Grid._getRegion g b)) :
    Grid.updateBody w false g b = (g, false) := by
  by_cases hs : b.isSleeping
  · simp [Grid.updateBody, hs]
  · rcases h with h | h | h
    · exact absurd h hs
    · simp [Grid.updateBody, hs, h]
    · simp [Grid.updateBody, hs, h]

theorem updatePhase_unchanged (g : Grid) (bodies : List Body) (w : World)
    (h : ∀ b ∈ bodies, b.isSleeping = true ∨ Grid.offWorld w b = true
        ∨ alookup g.regions b.id = some (Grid._getRegion g b)) :
    Grid.updatePhase g bodies w false = (g, false) := by
  unfold Grid.updatePhase
  induction bodies with
  | nil => simp
  | cons b rest ih =>
      have hb := updateBody_unchanged w g b (h b (List.mem_cons_self _ _))
      simp only [List.foldl_cons, hb, Bool.or_false]
      exact ih (fun b' hb' => h b' (List.mem_cons_of_mem _ hb'))

/-- C7: a second update with forceUpdate false, in which every body is
sleeping, off-world, or has its stored region equal to its current
region (bounds unchanged), performs no mutation at all: the resulting
grid, including buckets, pair table and pairs list, is the previous one,
and the pairs list is not recomputed. -/
theorem update_unchanged_bodies_identity (g : Grid) (bodies : List Body) (w : World)
    (h : ∀ b ∈ bodies, b.isSleeping = true ∨ Grid.offWorld w b = true
        ∨ alookup g.regions b.id = some (Grid._getRegion g b)) :
    Grid.update g bodies w false = g := by
  unfold Grid.update
  rw [updatePhase_unchanged g bodies w h]
  simp

theorem update_unchanged_bodies_identity_witness :
    (∀ b ∈ [c1A1, c1B], b.isSleeping = true ∨ Grid.offWorld wBig b = true
        ∨ alookup c1Frame1.regions b.id = some (Grid._getRegion c1Frame1 b)) ∧
    Grid.update c1Frame1 [c1A1, c1B] wBig false = c1Frame1 :=
  ⟨by decide, update_unchanged_bodies_identity c1Frame1 [c1A1, c1B] wBig (by decide)⟩

theorem addPairsOne_noSelf (body bodyB : BRef) (ps : List ((Nat × Nat) × PairRec))
    (h : Grid.noSelfList ps) : Grid.noSelfList (Grid.addPairsOne body ps bodyB) := by
  unfold Grid.addPairsOne
  split_ifs with hg
  · exact h
  · push_neg at hg
    split
    · next a b2 n heq =>
        intro e he
        rcases mem_aset _ _ _ e he with rfl | he
        · exact h (Grid.pairKey body.id bodyB.id, (a, b2, n)) (alookup_mem _ _ _ heq)
        · exact h e he
    · next heq =>
        intro e he
        rcases List.mem_append.mp he with he | he
        · exact h e he
        · have he' : e = (Grid.pairKey body.id bodyB.id, (body, bodyB, 1)) := by
            simpa using he
          subst he'
          exact hg.1

theorem foldl_addPairsOne_noSelf (body : BRef) :
    ∀ (bucket : List BRef) (ps : List ((Nat × Nat) × PairRec)), Grid.noSelfList ps →
      Grid.noSelfList (bucket.foldl (Grid.addPairsOne body) ps) := by
  intro bucket
  induction bucket with
  | nil => intro ps h; exact h
  | cons x rest ih =>
      intro ps h
      exact ih _ (addPairsOne_noSelf body x ps h)

theorem decPairOne_noSelf (body bodyB : BRef) (ps : List ((Nat × Nat) × PairRec))
    (h : Grid.noSelfList ps) : Grid.noSelfList (Grid.decPairOne body ps bodyB) := by
  unfold Grid.decPairOne
  split
  · next a b2 n heq =>
      intro e he
      rcases mem_aset _ _ _ e he with rfl | he
      · exact h (Grid.pairKey body.id bodyB.id, (a, b2, n)) (alookup_mem _ _ _ heq)
      · exact h e he
  · next heq => exact h

theorem foldl_decPairOne_noSelf (body : BRef) :
    ∀ (bucket : List BRef) (ps : List ((Nat × Nat) × PairRec)), Grid.noSelfList ps →
      Grid.noSelfList (bucket.foldl (Grid.decPairOne body) ps) := by
  intro bucket
  induction bucket with
  | nil => intro ps h; exact h
  | cons x rest ih =>
      intro ps h
      exact ih _ (decPairOne_noSelf body x ps h)

theorem bucketAddBody_pairs_noSelf (ps : List ((Nat × Nat) × PairRec)) (bucket : List BRef)
    (body : BRef) (h : Grid.noSelfList ps) :
    Grid.noSelfList (Grid._bucketAddBody ps bucket body).1 :=
  foldl_addPairsOne_noSelf body bucket ps h

theorem bucketRemoveBody_pairs_noSelf (ps : List ((Nat × Nat) × PairRec)) (bucket : List BRef)
    (body : BRef) (h : Grid.noSelfList ps) :
    Grid.noSelfList (Grid._bucketRemoveBody ps bucket body).1 :=
  foldl_decPairOne_noSelf body _ ps h

theorem removeStep_pairs_noSelf (body : BRef) (bid : ℤ) (g : Grid)
    (h : Grid.noSelfList g.pairs) : Grid.noSelfList (Grid.removeStep body bid g).pairs := by
  unfold Grid.removeStep
  cases hb : alookup g.buckets bid with
  | some bucket => exact bucketRemoveBody_pairs_noSelf g.pairs bucket body h
  | none => exact h

theorem addStep_pairs_noSelf (body : BRef) (bid : ℤ) (g : Grid)
    (h : Grid.noSelfList g.pairs) : Grid.noSelfList (Grid.addStep body bid g).pairs := by
  unfold Grid.addStep
  cases hb : alookup g.buckets bid with
  | some bucket => exact bucketAddBody_pairs_noSelf g.pairs bucket body h
  | none =>
      unfold Grid._createBucket
      cases hf : g.freeBuckets.getLast? with
      | some bk => exact bucketAddBody_pairs_noSelf g.pairs bk body h
      | none => exact bucketAddBody_pairs_noSelf g.pairs [] body h

theorem cellStep_pairs_noSelf (body : BRef) (nr eo : Region) (cr f : Bool) (g : Grid)
    (c : ℤ × ℤ) (h : Grid.noSelfList g.pairs) :
    Grid.noSelfList (Grid.cellStep body nr eo cr f g c).pairs := by
  simp only [Grid.cellStep]
  split_ifs with hc1 hc2 hc3
  all_goals first
    | exact addStep_pairs_noSelf _ _ _ (removeStep_pairs_noSelf _ _ _ h)
    | exact addStep_pairs_noSelf _ _ _ h
    | exact removeStep_pairs_noSelf _ _ _ h
    | exact h

theorem foldl_cellStep_pairs_noSelf (body : BRef) (nr eo : Region) (cr f : Bool) :
    ∀ (cells : List (ℤ × ℤ)) (g : Grid), Grid.noSelfList g.pairs →
      Grid.noSelfList ((cells.foldl (Grid.cellStep body nr eo cr f) g).pairs) := by
  intro cells
  induction cells with
  | nil => intro g h; exact h
  | cons c rest ih =>
      intro g h
      exact ih _ (cellStep_pairs_noSelf body nr eo cr f g c h)

theorem updateBody_pairs_noSelf (w : World) (f : Bool) (g : Grid) (b : Body)
    (h : Grid.noSelfList g.pairs) :
    Grid.noSelfList ((Grid.updateBody w f g b).1).pairs := by
  unfold Grid.updateBody
  split_ifs with h1 h2
  · exact h
  · exact h
  · dsimp only
    split_ifs with h3 h4
    · exact foldl_cellStep_pairs_noSelf _ _ _ _ _ _ _ h
    · exact foldl_cellStep_pairs_noSelf _ _ _ _ _ _ _ h
    · exact h

theorem updatePhase_go_pairs_noSelf (w : World) (f : Bool) :
    ∀ (bodies : List Body) (acc : Grid × Bool), Grid.noSelfList acc.1.pairs →
      Grid.noSelfList ((bodies.foldl (fun acc b =>
          let r := Grid.updateBody w f acc.1 b
          (r.1, acc.2 || r.2)) acc).1.pairs) := by
  intro bodies
  induction bodies with
  | nil => intro acc h; exact h
  | cons b rest ih =>
      intro acc h
      exact ih _ (updateBody_pairs_noSelf w f acc.1 b h)

theorem createActivePairsList_fst_subset (ps : List ((Nat × Nat) × PairRec)) :
    ∀ e ∈ (Grid._createActivePairsList ps).1, e ∈ ps := by
  intro e he
  unfold Grid._createActivePairsList at he
  rw [createActivePairsList_go ps [] []] at he
  simp only [List.nil_append] at he
  exact (List.mem_filter.mp he).1

theorem update_pairs_noSelf (g : Grid) (bodies : List Body) (w : World) (f : Bool)
    (h : Grid.noSelfList g.pairs) :
    Grid.noSelfList (Grid.update g bodies w f).pairs := by
  have hp : Grid.noSelfList (Grid.updatePhase g bodies w f).1.pairs :=
    updatePhase_go_pairs_noSelf w f bodies (g, false) h
  unfold Grid.update
  dsimp only
  split_ifs with hc
  · dsimp only
    intro e he
    exact hp e (createActivePairsList_fst_subset _ e he)
  · exact hp

theorem clear_pairs_noSelf (g : Grid) : Grid.noSelfList (Grid.clear g).pairs := by
  intro e he
  simp [Grid.clear] at he

/-- C3: in every grid state reachable through the public interface, no
pair record pairs a body with itself (by id), even when a body occupies
several cells as their sole occupant; moreover the pair bookkeeping of
bucket insertion runs against the pre-insertion bucket contents, the body
being appended only afterwards. -/
theorem no_self_pairing :
    (∀ g : Grid, Grid.Reach g → Grid.noSelfPairs g) ∧
    (∀ (ps : List ((Nat × Nat) × PairRec)) (bucket : List BRef) (body : BRef),
      Grid._bucketAddBody ps bucket body
        = (bucket.foldl (Grid.addPairsOne body) ps, bucket ++ [body])) := by
  constructor
  · intro g hg
    induction hg with
    | init => intro e he; simp [Grid.create] at he
    | step g bodies w f hr ih => exact update_pairs_noSelf g bodies w f ih
    | stepClear g hr ih => exact clear_pairs_noSelf g
  · intro ps bucket body
    rfl

theorem no_self_pairing_witness :
    Grid.noSelfPairs (Grid.update Grid.create [c1A2] wBig false) :=
  no_self_pairing.1 _ (Grid.Reach.step Grid.create [c1A2] wBig false Grid.Reach.init)

theorem mem_of_getLast?_eq {α : Type} (l : List α) (a : α) (h : l.getLast? = some a) :
    a ∈ l := by
  cases l with
  | nil => simp at h
  | cons x xs =>
      have hne : (x :: xs) ≠ [] := by simp
      rw [List.getLast?_eq_getLast _ hne] at h
      have ha : (x :: xs).getLast hne = a := Option.some.inj h
      rw [← ha]
      exact List.getLast_mem hne

theorem bucketRemoveBody_snd_subset (ps : List ((Nat × Nat) × PairRec)) (bucket : List BRef)
    (body : BRef) (r : BRef) (h : r ∈ (Grid._bucketRemoveBody ps bucket body).2) :
    r ∈ bucket := by
  unfold Grid._bucketRemoveBody at h
  dsimp only at h
  revert h
  cases hf : bucket.findIdx? (fun x => x.id == body.id) with
  | some i =>
      intro h
      unfold Grid.swapRemove at h
      revert h
      cases hl : bucket.getLast? with
      | some last =>
          intro h
          have h1 := List.mem_of_mem_dropLast h
          rcases List.mem_or_eq_of_mem_set h1 with h2 | h2
          · exact h2
          · rw [h2]
            exact mem_of_getLast?_eq bucket last hl
      | none => intro h; exact h
  | none =>
      intro h
      exact List.mem_of_mem_dropLast h

theorem addPairsOne_noPairsFor (body bodyB : BRef) (x : Nat)
    (ps : List ((Nat × Nat) × PairRec)) (hb : body.id ≠ x) (hB : bodyB.id ≠ x)
    (h : Grid.noPairsForList ps x) :
    Grid.noPairsForList (Grid.addPairsOne body ps bodyB) x := by
  unfold Grid.addPairsOne
  split_ifs with hg
  · exact h
  · split
    · next a b2 n heq =>
        intro e he
        rcases mem_aset _ _ _ e he with rfl | he
        · exact h (Grid.pairKey body.id bodyB.id, (a, b2, n)) (alookup_mem _ _ _ heq)
        · exact h e he
    · next heq =>
        intro e he
        rcases List.mem_append.mp he with he | he
        · exact h e he
        · have he' : e = (Grid.pairKey body.id bodyB.id, (body, bodyB, 1)) := by
            simpa using he
          subst he'
          exact ⟨hb, hB⟩

theorem foldl_addPairsOne_noPairsFor (body : BRef) (x : Nat) (hb : body.id ≠ x) :
    ∀ (bucket : List BRef) (ps : List ((Nat × Nat) × PairRec)),
      (∀ r ∈ bucket, r.id ≠ x) → Grid.noPairsForList ps x →
      Grid.noPairsForList (bucket.foldl (Grid.addPairsOne body) ps) x := by
  intro bucket
  induction bucket with
  | nil => intro ps _ h; exact h
  | cons r rest ih =>
      intro ps hr h
      exact ih _ (fun r' hr' => hr r' (List.mem_cons_of_mem _ hr'))
        (addPairsOne_noPairsFor body r x ps hb (hr r (List.mem_cons_self _ _)) h)

theorem decPairOne_noPairsFor (body bodyB : BRef) (x : Nat)
    (ps : List ((Nat × Nat) × PairRec)) (h : Grid.noPairsForList ps x) :
    Grid.noPairsForList (Grid.decPairOne body ps bodyB) x := by
  unfold Grid.decPairOne
  split
  · next a b2 n heq =>
      intro e he
      rcases mem_aset _ _ _ e he with rfl | he
      · exact h (Grid.pairKey body.id bodyB.id, (a, b2, n)) (alookup_mem _ _ _ heq)
      · exact h e he
  · next heq => exact h

theorem foldl_decPairOne_noPairsFor (body : BRef) (x : Nat) :
    ∀ (bucket : List BRef) (ps : List ((Nat × Nat) × PairRec)),
      Grid.noPairsForList ps x →
      Grid.noPairsForList (bucket.foldl (Grid.decPairOne body) ps) x := by
  intro bucket
  induction bucket with
  | nil => intro ps h; exact h
  | cons r rest ih =>
      intro ps h
      exact ih _ (decPairOne_noPairsFor body r x ps h)

theorem not_mem_map_id {bk' bk : List BRef} (x : Nat) (hsub : ∀ r ∈ bk', r ∈ bk)
    (h : x ∉ bk.map BRef.id) : x ∉ bk'.map BRef.id := by
  intro hx
  rcases List.mem_map.mp hx with ⟨r, hr, rfl⟩
  exact h (List.mem_map_of_mem _ (hsub r hr))

theorem removeStep_none (body : BRef) (bid : ℤ) (g : Grid)
    (hb : alookup g.buckets bid = none) : Grid.removeStep body bid g = g := by
  unfold Grid.removeStep
  rw [hb]

theorem removeStep_some_buckets (body : BRef) (bid : ℤ) (g : Grid) (bucket : List BRef)
    (hb : alookup g.buckets bid = some bucket) :
    (Grid.removeStep body bid g).buckets
      = aset g.buckets bid (Grid._bucketRemoveBody g.pairs bucket body).2 := by
  unfold Grid.removeStep
  rw [hb]

theorem removeStep_some_pairs (body : BRef) (bid : ℤ) (g : Grid) (bucket : List BRef)
    (hb : alookup g.buckets bid = some bucket) :
    (Grid.removeStep body bid g).pairs = (Grid._bucketRemoveBody g.pairs bucket body).1 := by
  unfold Grid.removeStep
  rw [hb]

theorem removeStep_misc (body : BRef) (bid : ℤ) (g : Grid) :
    (Grid.removeStep body bid g).freeBuckets = g.freeBuckets ∧
    (Grid.removeStep body bid g).regions = g.regions ∧
    (Grid.removeStep body bid g).bucketWidth = g.bucketWidth ∧
    (Grid.removeStep body bid g).bucketHeight = g.bucketHeight ∧
    (Grid.removeStep body bid g).pairsList = g.pairsList := by
  unfold Grid.removeStep
  cases alookup g.buckets bid with
  | some bucket => exact ⟨rfl, rfl, rfl, rfl, rfl⟩
  | none => exact ⟨rfl, rfl, rfl, rfl, rfl⟩

theorem addStep_misc (body : BRef) (bid : ℤ) (g : Grid) :
    (Grid.addStep body bid g).regions = g.regions ∧
    (Grid.addStep body bid g).bucketWidth = g.bucketWidth ∧
    (Grid.addStep body bid g).bucketHeight = g.bucketHeight ∧
    (Grid.addStep body bid g).pairsList = g.pairsList := by
  unfold Grid.addStep Grid._createBucket
  cases alookup g.buckets bid with
  | some bucket => exact ⟨rfl, rfl, rfl, rfl⟩
  | none =>
      cases g.freeBuckets.getLast? with
      | some bk => exact ⟨rfl, rfl, rfl, rfl⟩
      | none => exact ⟨rfl, rfl, rfl, rfl⟩

theorem addStep_free_subset (body : BRef) (bid : ℤ) (g : Grid) :
    ∀ bk ∈ (Grid.addStep body bid g).freeBuckets, bk ∈ g.freeBuckets := by
  unfold Grid.addStep Grid._createBucket
  cases alookup g.buckets bid with
  | some bucket => exact fun bk h => h
  | none =>
      cases g.freeBuckets.getLast? with
      | some bk0 => exact fun bk h => List.mem_of_mem_dropLast h
      | none => exact fun bk h => h

theorem addStep_lookup_self (body : BRef) (bid : ℤ) (g : Grid) :
    ∃ bucket0, alookup (Grid.addStep body bid g).buckets bid = some (bucket0 ++ [body]) ∧
      (alookup g.buckets bid = some bucket0 ∨
        (alookup g.buckets bid = none ∧ (bucket0 = [] ∨ bucket0 ∈ g.freeBuckets))) := by
  unfold Grid.addStep Grid._createBucket
  cases hb : alookup g.buckets bid with
  | some bucket =>
      refine ⟨bucket, ?_, Or.inl rfl⟩
      exact alookup_aset_self _ _ _
  | none =>
      cases hf : g.freeBuckets.getLast? with
      | some bk0 =>
          refine ⟨bk0, ?_, Or.inr ⟨rfl, Or.inr (mem_of_getLast?_eq _ _ hf)⟩⟩
          exact alookup_aset_self _ _ _
      | none =>
          refine ⟨[], ?_, Or.inr ⟨rfl, Or.inl rfl⟩⟩
          exact alookup_aset_self _ _ _

theorem addStep_lookup_ne (body : BRef) (bid : ℤ) (g : Grid) (k : ℤ) (hk : k ≠ bid) :
    alookup (Grid.addStep body bid g).buckets k = alookup g.buckets k := by
  unfold Grid.addStep Grid._createBucket
  cases alookup g.buckets bid with
  | some bucket => exact alookup_aset_ne _ _ _ _ hk
  | none =>
      cases g.freeBuckets.getLast? with
      | some bk0 => rw [alookup_aset_ne _ _ _ _ hk, alookup_aset_ne _ _ _ _ hk]
      | none => rw [alookup_aset_ne _ _ _ _ hk, alookup_aset_ne _ _ _ _ hk]

theorem addStep_pairs_eq (body : BRef) (bid : ℤ) (g : Grid) :
    (Grid.addStep body bid g).pairs
      = ((alookup g.buckets bid).getD (g.freeBuckets.getLast?.getD [])).foldl
          (Grid.addPairsOne body) g.pairs := by
  unfold Grid.addStep Grid._createBucket
  cases alookup g.buckets bid with
  | some bucket => rfl
  | none =>
      cases g.freeBuckets.getLast? with
      | some bk0 => rfl
      | none => rfl

theorem removeStep_pres (body : BRef) (bid : ℤ) (g : Grid) (x : Nat)
    (ha : Grid.bodyAbsent g x) (hp : Grid.noPairsForList g.pairs x) :
    Grid.bodyAbsent (Grid.removeStep body bid g) x ∧
    Grid.noPairsForList (Grid.removeStep body bid g).pairs x := by
  cases hb : alookup g.buckets bid with
  | none => rw [removeStep_none body bid g hb]; exact ⟨ha, hp⟩
  | some bucket =>
      constructor
      · intro k bk hk
        rw [removeStep_some_buckets body bid g bucket hb] at hk
        by_cases hkb : k = bid
        · subst hkb
          rw [alookup_aset_self] at hk
          cases Option.some.inj hk
          exact not_mem_map_id x
            (fun r hr => bucketRemoveBody_snd_subset g.pairs bucket body r hr)
            (ha _ bucket hb)
        · rw [alookup_aset_ne _ _ _ _ hkb] at hk
          exact ha k bk hk
      · rw [removeStep_some_pairs body bid g bucket hb]
        exact foldl_decPairOne_noPairsFor body x _ g.pairs hp

theorem not_mem_ids_iff {bk : List BRef} {x : Nat} :
    x ∉ bk.map BRef.id ↔ ∀ r ∈ bk, r.id ≠ x := by
  constructor
  · intro h r hr he
    exact h (he ▸ List.mem_map_of_mem _ hr)
  · intro h hx
    rcases List.mem_map.mp hx with ⟨r, hr, rfl⟩
    exact h r hr rfl

theorem addStep_pres (body : BRef) (bid : ℤ) (g : Grid) (x : Nat) (hbx : body.id ≠ x)
    (ha : Grid.bodyAbsent g x) (hp : Grid.noPairsForList g.pairs x)
    (hf : Grid.freeClean g) :
    Grid.bodyAbsent (Grid.addStep body bid g) x ∧
    Grid.noPairsForList (Grid.addStep body bid g).pairs x ∧
    Grid.freeClean (Grid.addStep body bid g) := by
  have hb0 : ∀ r ∈ (alookup g.buckets bid).getD (g.freeBuckets.getLast?.getD []),
      r.id ≠ x := by
    cases hb : alookup g.buckets bid with
    | some bucket =>
        intro r hr
        exact not_mem_ids_iff.mp (ha bid bucket hb) r hr
    | none =>
        cases hfp : g.freeBuckets.getLast? with
        | some bk0 =>
            intro r hr
            rw [hf bk0 (mem_of_getLast?_eq _ _ hfp)] at hr
            simp at hr
        | none => intro r hr; simp at hr
  refine ⟨?_, ?_, ?_⟩
  · intro k bk hk
    by_cases hkb : k = bid
    · subst hkb
      obtain ⟨bucket0, hself, hcase⟩ := addStep_lookup_self body _ g
      rw [hself] at hk
      cases Option.some.inj hk
      rw [not_mem_ids_iff]
      intro r hr
      rcases List.mem_append.mp hr with hr | hr
      · rcases hcase with hcase | ⟨hnone, hcase⟩
        · exact not_mem_ids_iff.mp (ha _ bucket0 hcase) r hr
        · rcases hcase with rfl | hcase
          · simp at hr
          · rw [hf bucket0 hcase] at hr
            simp at hr
      · have : r = body := by simpa using hr
        subst this
        exact hbx
    · rw [addStep_lookup_ne body bid g k hkb] at hk
      exact ha k bk hk
  · rw [addStep_pairs_eq]
    exact foldl_addPairsOne_noPairsFor body x hbx _ g.pairs hb0 hp
  · intro bk hbk
    exact hf bk (addStep_free_subset body bid g bk hbk)

theorem removeStep_freeClean (body : BRef) (bid : ℤ) (g : Grid)
    (hf : Grid.freeClean g) : Grid.freeClean (Grid.removeStep body bid g) := by
  intro bk hbk
  rw [(removeStep_misc body bid g).1] at hbk
  exact hf bk hbk

theorem cellStep_pres (body : BRef) (nr eo : Region) (cr f : Bool) (g : Grid)
    (c : ℤ × ℤ) (x : Nat) (hbx : body.id ≠ x)
    (h : Grid.bodyAbsent g x ∧ Grid.noPairsForList g.pairs x ∧ Grid.freeClean g) :
    Grid.bodyAbsent (Grid.cellStep body nr eo cr f g c) x ∧
    Grid.noPairsForList (Grid.cellStep body nr eo cr f g c).pairs x ∧
    Grid.freeClean (Grid.cellStep body nr eo cr f g c) := by
  obtain ⟨ha, hp, hf⟩ := h
  have hrem : Grid.bodyAbsent (Grid.removeStep body (Grid._getBucketId c.1 c.2) g) x ∧
      Grid.noPairsForList (Grid.removeStep body (Grid._getBucketId c.1 c.2) g).pairs x ∧
      Grid.freeClean (Grid.removeStep body (Grid._getBucketId c.1 c.2) g) := by
    obtain ⟨h1, h2⟩ := removeStep_pres body _ g x ha hp
    exact ⟨h1, h2, removeStep_freeClean body _ g hf⟩
  simp only [Grid.cellStep]
  split_ifs with hc1 hc2 hc3
  · obtain ⟨a1, a2, a3⟩ := hrem
    exact addStep_pres body _ _ x hbx a1 a2 a3
  · exact addStep_pres body _ _ x hbx ha hp hf
  · exact hrem
  · exact ⟨ha, hp, hf⟩

theorem foldl_cellStep_pres (body : BRef) (nr eo : Region) (cr f : Bool) (x : Nat)
    (hbx : body.id ≠ x) :
    ∀ (cells : List (ℤ × ℤ)) (g : Grid),
      Grid.bodyAbsent g x ∧ Grid.noPairsForList g.pairs x ∧ Grid.freeClean g →
      Grid.bodyAbsent (cells.foldl (Grid.cellStep body nr eo cr f) g) x ∧
      Grid.noPairsForList (cells.foldl (Grid.cellStep body nr eo cr f) g).pairs x ∧
      Grid.freeClean (cells.foldl (Grid.cellStep body nr eo cr f) g) := by
  intro cells
  induction cells with
  | nil => intro g h; exact h
  | cons c rest ih =>
      intro g h
      exact ih _ (cellStep_pres body nr eo cr f g c x hbx h)

theorem updateBody_skip_sleeping (w : World) (f : Bool) (g : Grid) (b : Body)
    (h1 : (b.isSleeping && !f) = true) : Grid.updateBody w f g b = (g, false) := by
  unfold Grid.updateBody
  rw [if_pos h1]

theorem updateBody_skip_off (w : World) (f : Bool) (g : Grid) (b : Body)
    (ho : Grid.offWorld w b = true) : Grid.updateBody w f g b = (g, false) := by
  by_cases h1 : (b.isSleeping && !f) = true
  · exact updateBody_skip_sleeping w f g b h1
  · unfold Grid.updateBody
    rw [if_neg h1, if_pos ho]

theorem cellStep_misc (body : BRef) (nr eo : Region) (cr f : Bool) (g : Grid)
    (c : ℤ × ℤ) :
    (Grid.cellStep body nr eo cr f g c).pairsList = g.pairsList ∧
    (Grid.cellStep body nr eo cr f g c).bucketWidth = g.bucketWidth ∧
    (Grid.cellStep body nr eo cr f g c).bucketHeight = g.bucketHeight ∧
    (Grid.cellStep body nr eo cr f g c).regions = g.regions := by
  simp only [Grid.cellStep]
  split_ifs with hc1 hc2 hc3
  · have h1 := addStep_misc body (Grid._getBucketId c.1 c.2)
      (Grid.removeStep body (Grid._getBucketId c.1 c.2) g)
    have h2 := removeStep_misc body (Grid._getBucketId c.1 c.2) g
    exact ⟨h1.2.2.2.trans h2.2.2.2.2, h1.2.1.trans h2.2.2.1,
           h1.2.2.1.trans h2.2.2.2.1, h1.1.trans h2.2.1⟩
  · have h1 := addStep_misc body (Grid._getBucketId c.1 c.2) g
    exact ⟨h1.2.2.2, h1.2.1, h1.2.2.1, h1.1⟩
  · have h2 := removeStep_misc body (Grid._getBucketId c.1 c.2) g
    exact ⟨h2.2.2.2.2, h2.2.2.1, h2.2.2.2.1, h2.2.1⟩
  · exact ⟨rfl, rfl, rfl, rfl⟩

theorem foldl_cellStep_misc (body : BRef) (nr eo : Region) (cr f : Bool) :
    ∀ (cells : List (ℤ × ℤ)) (g : Grid),
      ((cells.foldl (Grid.cellStep body nr eo cr f) g).pairsList = g.pairsList ∧
       (cells.foldl (Grid.cellStep body nr eo cr f) g).bucketWidth = g.bucketWidth ∧
       (cells.foldl (Grid.cellStep body nr eo cr f) g).bucketHeight = g.bucketHeight ∧
       (cells.foldl (Grid.cellStep body nr eo cr f) g).regions = g.regions) := by
  intro cells
  induction cells with
  | nil => intro g; exact ⟨rfl, rfl, rfl, rfl⟩
  | cons c rest ih =>
      intro g
      have h1 := ih (Grid.cellStep body nr eo cr f g c)
      have h2 := cellStep_misc body nr eo cr f g c
      exact ⟨h1.1.trans h2.1, h1.2.1.trans h2.2.1,
             h1.2.2.1.trans h2.2.2.1, h1.2.2.2.trans h2.2.2.2⟩

theorem updateBody_wlh (w : World) (f : Bool) (g : Grid) (b : Body) :
    (Grid.updateBody w f g b).1.pairsList = g.pairsList ∧
    (Grid.updateBody w f g b).1.bucketWidth = g.bucketWidth ∧
    (Grid.updateBody w f g b).1.bucketHeight = g.bucketHeight := by
  unfold Grid.updateBody
  split_ifs with h1 h2
  · exact ⟨rfl, rfl, rfl⟩
  · exact ⟨rfl, rfl, rfl⟩
  · dsimp only
    split_ifs with h3 h4
    · exact ⟨(foldl_cellStep_misc b.ref _ _ _ f _ g).1,
             (foldl_cellStep_misc b.ref _ _ _ f _ g).2.1,
             (foldl_cellStep_misc b.ref _ _ _ f _ g).2.2.1⟩
    · exact ⟨(foldl_cellStep_misc b.ref _ _ _ f _ g).1,
             (foldl_cellStep_misc b.ref _ _ _ f _ g).2.1,
             (foldl_cellStep_misc b.ref _ _ _ f _ g).2.2.1⟩
    · exact ⟨rfl, rfl, rfl⟩

theorem updateBody_pres (w : World) (f : Bool) (g : Grid) (b : Body) (x : Nat)
    (hbo : b.id = x → Grid.offWorld w b = true)
    (h : Grid.bodyAbsent g x ∧ Grid.noPairsForList g.pairs x ∧ Grid.freeClean g) :
    Grid.bodyAbsent (Grid.updateBody w f g b).1 x ∧
    Grid.noPairsForList (Grid.updateBody w f g b).1.pairs x ∧
    Grid.freeClean (Grid.updateBody w f g b).1 := by
  by_cases hx : b.id = x
  · have ho := hbo hx
    rw [updateBody_skip_off w f g b ho]
    exact h
  · unfold Grid.updateBody
    split_ifs with h1 h2
    · exact h
    · exact h
    · dsimp only
      split_ifs with h3 h4
      · exact foldl_cellStep_pres b.ref _ _ _ f x hx _ g h
      · exact foldl_cellStep_pres b.ref _ _ _ f x hx _ g h
      · exact h

theorem updatePhase_go_pres (w : World) (f : Bool) (x : Nat) :
    ∀ (bodies : List Body) (acc : Grid × Bool),
      (∀ b ∈ bodies, b.id = x → Grid.offWorld w b = true) →
      (Grid.bodyAbsent acc.1 x ∧ Grid.noPairsForList acc.1.pairs x ∧
        Grid.freeClean acc.1) →
      (Grid.bodyAbsent (bodies.foldl (fun acc b =>
          let r := Grid.updateBody w f acc.1 b
          (r.1, acc.2 || r.2)) acc).1 x ∧
       Grid.noPairsForList (bodies.foldl (fun acc b =>
          let r := Grid.updateBody w f acc.1 b
          (r.1, acc.2 || r.2)) acc).1.pairs x ∧
       Grid.freeClean (bodies.foldl (fun acc b =>
          let r := Grid.updateBody w f acc.1 b
          (r.1, acc.2 || r.2)) acc).1) := by
  intro bodies
  induction bodies with
  | nil => intro acc _ h; exact h
  | cons b rest ih =>
      intro acc hb h
      exact ih _ (fun b' hb' => hb b' (List.mem_cons_of_mem _ hb'))
        (updateBody_pres w f acc.1 b x (hb b (List.mem_cons_self _ _)) h)

theorem updatePhase_go_wlh (w : World) (f : Bool) :
    ∀ (bodies : List Body) (acc : Grid × Bool),
      ((bodies.foldl (fun acc b =>
          let r := Grid.updateBody w f acc.1 b
          (r.1, acc.2 || r.2)) acc).1.pairsList = acc.1.pairsList ∧
       (bodies.foldl (fun acc b =>
          let r := Grid.updateBody w f acc.1 b
          (r.1, acc.2 || r.2)) acc).1.bucketWidth = acc.1.bucketWidth ∧
       (bodies.foldl (fun acc b =>
          let r := Grid.updateBody w f acc.1 b
          (r.1, acc.2 || r.2)) acc).1.bucketHeight = acc.1.bucketHeight) := by
  intro bodies
  induction bodies with
  | nil => intro acc; exact ⟨rfl, rfl, rfl⟩
  | cons b rest ih =>
      intro acc
      have h1 := ih ((Grid.updateBody w f acc.1 b).1, acc.2 || (Grid.updateBody w f acc.1 b).2)
      have h2 := updateBody_wlh w f acc.1 b
      exact ⟨h1.1.trans h2.1, h1.2.1.trans h2.2.1, h1.2.2.trans h2.2.2⟩

theorem createActivePairsList_snd_mem (ps : List ((Nat × Nat) × PairRec)) :
    ∀ p ∈ (Grid._createActivePairsList ps).2, ∃ e ∈ ps, e.2 = p := by
  intro p hp
  unfold Grid._createActivePairsList at hp
  rw [createActivePairsList_go ps [] []] at hp
  simp only [List.nil_append] at hp
  rcases List.mem_map.mp hp with ⟨e, he, rfl⟩
  exact ⟨e, (List.mem_filter.mp he).1, rfl⟩

theorem update_offworld_pres (g : Grid) (bodies : List Body) (w : World) (f : Bool)
    (x : Nat) (hb : ∀ b ∈ bodies, b.id = x → Grid.offWorld w b = true)
    (ha : Grid.bodyAbsent g x) (hp : Grid.noPairsFor g x) (hf : Grid.freeClean g) :
    Grid.bodyAbsent (Grid.update g bodies w f) x ∧
    Grid.noPairsFor (Grid.update g bodies w f) x ∧
    Grid.freeClean (Grid.update g bodies w f) := by
  have hphase := updatePhase_go_pres w f x bodies (g, false) hb ⟨ha, hp.1, hf⟩
  have hwlh := updatePhase_go_wlh w f bodies (g, false)
  unfold Grid.update
  dsimp only
  split_ifs with hc
  · refine ⟨?_, ⟨?_, ?_⟩, ?_⟩
    · exact hphase.1
    · intro e he
      exact hphase.2.1 e (createActivePairsList_fst_subset _ e he)
    · intro p hp'
      obtain ⟨e, he, rfl⟩ := createActivePairsList_snd_mem _ p hp'
      exact hphase.2.1 e he
    · exact hphase.2.2
  · refine ⟨hphase.1, ⟨hphase.2.1, ?_⟩, hphase.2.2⟩
    intro p hp'
    rw [show (Grid.updatePhase g bodies w f).1.pairsList = g.pairsList from hwlh.1] at hp'
    exact hp.2 p hp'

theorem addStep_mem_self (body : BRef) (bid : ℤ) (g : Grid) :
    Grid.memBucket (Grid.addStep body bid g) bid body.id := by
  obtain ⟨bucket0, hself, _⟩ := addStep_lookup_self body bid g
  exact ⟨bucket0 ++ [body], hself, by simp⟩

theorem addStep_mem_mono (body : BRef) (bid : ℤ) (g : Grid) (k : ℤ) (x : Nat)
    (h : Grid.memBucket g k x) : Grid.memBucket (Grid.addStep body bid g) k x := by
  obtain ⟨bk, hbk, hx⟩ := h
  by_cases hkb : k = bid
  · subst hkb
    obtain ⟨bucket0, hself, hcase⟩ := addStep_lookup_self body _ g
    rcases hcase with hcase | ⟨hnone, _⟩
    · rw [hbk] at hcase
      cases Option.some.inj hcase
      exact ⟨bk ++ [body], hself, by
        simp only [List.map_append, List.mem_append]
        exact Or.inl hx⟩
    · rw [hbk] at hnone
      simp at hnone
  · refine ⟨bk, ?_, hx⟩
    rw [addStep_lookup_ne body bid g k hkb]
    exact hbk

theorem cellStep_create_not_remove (nr : Region) (c : ℤ × ℤ) :
    (!Grid.inRegion nr c.1 c.2 && Grid.inRegion nr c.1 c.2) = false :=
  Bool.not_and_self _

theorem cellStep_create_eq (body : BRef) (nr : Region) (f : Bool) (g : Grid)
    (c : ℤ × ℤ) :
    Grid.cellStep body nr nr true f g c
      = Grid.addStep body (Grid._getBucketId c.1 c.2) g := by
  simp [Grid.cellStep, cellStep_create_not_remove nr c]

theorem cellStep_create_mem_mono (body : BRef) (nr : Region) (f : Bool) (g : Grid)
    (c : ℤ × ℤ) (k : ℤ) (x : Nat) (h : Grid.memBucket g k x) :
    Grid.memBucket (Grid.cellStep body nr nr true f g c) k x := by
  rw [cellStep_create_eq]
  exact addStep_mem_mono body _ g k x h

theorem cellStep_create_mem_self (body : BRef) (nr : Region) (f : Bool) (g : Grid)
    (c : ℤ × ℤ) :
    Grid.memBucket (Grid.cellStep body nr nr true f g c) (Grid._getBucketId c.1 c.2)
      body.id := by
  rw [cellStep_create_eq]
  exact addStep_mem_self body _ g

theorem foldl_create_mem_mono (body : BRef) (nr : Region) (f : Bool) :
    ∀ (cells : List (ℤ × ℤ)) (g : Grid) (k : ℤ) (x : Nat), Grid.memBucket g k x →
      Grid.memBucket (cells.foldl (Grid.cellStep body nr nr true f) g) k x := by
  intro cells
  induction cells with
  | nil => intro g k x h; exact h
  | cons c rest ih =>
      intro g k x h
      exact ih _ k x (cellStep_create_mem_mono body nr f g c k x h)

theorem foldl_create_mem (body : BRef) (nr : Region) (f : Bool) :
    ∀ (cells : List (ℤ × ℤ)) (g : Grid) (c : ℤ × ℤ), c ∈ cells →
      Grid.memBucket (cells.foldl (Grid.cellStep body nr nr true f) g)
        (Grid._getBucketId c.1 c.2) body.id := by
  intro cells
  induction cells with
  | nil => intro g c hc; simp at hc
  | cons c0 rest ih =>
      intro g c hc
      rcases List.mem_cons.mp hc with rfl | hc
      · simp only [List.foldl_cons]
        exact foldl_create_mem_mono body nr f rest _ _ _
          (cellStep_create_mem_self body nr f g c)
      · simp only [List.foldl_cons]
        exact ih _ c hc

theorem update_single_create_buckets (g : Grid) (b : Body) (w : World) (f : Bool)
    (hs : b.isSleeping = false) (ho : Grid.offWorld w b = false)
    (hr : alookup g.regions b.id = none) :
    (Grid.update g [b] w f).buckets
      = ((Grid._getRegion g b).cells.foldl
          (Grid.cellStep b.ref (Grid._getRegion g b) (Grid._getRegion g b) true f)
          g).buckets := by
  unfold Grid.update Grid.updatePhase Grid.updateBody
  simp [hs, ho, hr]

theorem update_create_mem (g : Grid) (b : Body) (w : World) (f : Bool)
    (hs : b.isSleeping = false) (ho : Grid.offWorld w b = false)
    (hr : alookup g.regions b.id = none) :
    ∀ c ∈ (Grid._getRegion g b).cells,
      Grid.memBucket (Grid.update g [b] w f) (Grid._getBucketId c.1 c.2) b.id := by
  intro c hc
  obtain ⟨bk, hbk, hx⟩ :=
    foldl_create_mem b.ref (Grid._getRegion g b) f (Grid._getRegion g b).cells g c hc
  refine ⟨bk, ?_, hx⟩
  rw [update_single_create_buckets g b w f hs ho hr]
  exact hbk

theorem create_absent (x : Nat) : Grid.bodyAbsent Grid.create x :=
  fun k bk hk => by simp [Grid.create, alookup] at hk

theorem create_noPairsFor (x : Nat) : Grid.noPairsFor Grid.create x :=
  ⟨fun e he => by simp [Grid.create] at he, fun p hp => by simp [Grid.create] at hp⟩

theorem create_freeClean : Grid.freeClean Grid.create :=
  fun bk h => by simp [Grid.create] at h

/-- C8 (amended): an update adds an off-world body to no bucket: if every
body carrying a given id is off-world and the id occupies no bucket and has
no pair records, this remains so after the update (so a body off-world
since creation yields no pairs); and once a fresh, awake body is on-world,
the update registers it in the bucket of every cell of its region.  A
previously integrated body that moves off-world, however, retains its old
bucket entries and may keep producing pairs (see the counterexample). -/
theorem offworld_rejection :
    (∀ (g : Grid) (bodies : List Body) (w : World) (f : Bool) (x : Nat),
        (∀ b ∈ bodies, b.id = x → Grid.offWorld w b = true) →
        Grid.bodyAbsent g x → Grid.noPairsFor g x → Grid.freeClean g →
        Grid.bodyAbsent (Grid.update g bodies w f) x ∧
        Grid.noPairsFor (Grid.update g bodies w f) x ∧
        Grid.freeClean (Grid.update g bodies w f)) ∧
    (∀ (g : Grid) (b : Body) (w : World) (f : Bool),
        b.isSleeping = false → Grid.offWorld w b = false →
        alookup g.regions b.id = none →
        ∀ c ∈ (Grid._getRegion g b).cells,
          Grid.memBucket (Grid.update g [b] w f) (Grid._getBucketId c.1 c.2) b.id) :=
  ⟨fun g bodies w f x hb ha hp hf => update_offworld_pres g bodies w f x hb ha hp hf,
   fun g b w f hs ho hr => update_create_mem g b w f hs ho hr⟩

theorem offworld_rejection_witness :
    ((∀ b ∈ [c8AOff], b.id = 1 → Grid.offWorld wBig b = true) ∧
      Grid.bodyAbsent (Grid.update Grid.create [c8AOff] wBig false) 1 ∧
      Grid.noPairsFor (Grid.update Grid.create [c8AOff] wBig false) 1 ∧
      Grid.freeClean (Grid.update Grid.create [c8AOff] wBig false)) ∧
    Grid.memBucket (Grid.update Grid.create [c8B] wBig false) (Grid._getBucketId 0 0) 2 :=
  ⟨⟨by decide,
    offworld_rejection.1 Grid.create [c8AOff] wBig false 1 (by decide)
      (create_absent 1) (create_noPairsFor 1) create_freeClean⟩,
   offworld_rejection.2 Grid.create c8B wBig false (by decide) (by decide) (by decide)
     (0, 0) (by decide)⟩

/-- C8 counterexample: bodies 1 and 2 share a cell; body 1 then moves
entirely outside the world while body 3 appears elsewhere; after that
update body 1 is off-world yet still sits in its old bucket and its pair
with body 2 is still present in the extracted active pairs list. -/
theorem offworld_pair_lingers :
    Grid.offWorld wBig c8AOff = true ∧
    (⟨2, false⟩, ⟨1, false⟩, (1 : ℤ)) ∈ c8Frame2.pairsList ∧
    alookup c8Frame2.buckets (Grid._getBucketId 0 0) = some [⟨1, false⟩, ⟨2, false⟩] := by
  decide

theorem offWorld_eq_false_of_touching (w : World) (b : Body)
    (hx : b.bounds.maxX = w.minX) (hbx : b.bounds.minX ≤ b.bounds.maxX)
    (hw : w.minX ≤ w.maxX) (hy1 : w.minY ≤ b.bounds.maxY)
    (hy2 : b.bounds.minY ≤ w.maxY) : Grid.offWorld w b = false := by
  unfold Grid.offWorld
  simp only [Bool.or_eq_false_iff, decide_eq_false_iff_not, not_lt]
  refine ⟨⟨⟨?_, ?_⟩, ?_⟩, ?_⟩
  · linarith
  · linarith
  · linarith
  · linarith

/-- C10: a body whose bounding box merely touches the world bounds (its
max x equal to the world's min x) is not rejected by the strict off-world
pre-filter; a fresh awake such body is processed by the update and
registered in the bucket of every cell of its region. -/
theorem touching_body_processed (g : Grid) (b : Body) (w : World) (f : Bool)
    (hx : b.bounds.maxX = w.minX) (hbx : b.bounds.minX ≤ b.bounds.maxX)
    (hw : w.minX ≤ w.maxX) (hy1 : w.minY ≤ b.bounds.maxY)
    (hy2 : b.bounds.minY ≤ w.maxY) (hs : b.isSleeping = false)
    (hr : alookup g.regions b.id = none) :
    Grid.offWorld w b = false ∧
    ∀ c ∈ (Grid._getRegion g b).cells,
      Grid.memBucket (Grid.update g [b] w f) (Grid._getBucketId c.1 c.2) b.id := by
  have ho := offWorld_eq_false_of_touching w b hx hbx hw hy1 hy2
  exact ⟨ho, update_create_mem g b w f hs ho hr⟩

theorem touching_body_processed_witness :
    Grid.offWorld wBig c10B = false ∧
    ∀ c ∈ (Grid._getRegion Grid.create c10B).cells,
      Grid.memBucket (Grid.update Grid.create [c10B] wBig false)
        (Grid._getBucketId c.1 c.2) 7 :=
  touching_body_processed Grid.create c10B wBig false (by decide) (by decide) (by decide)
    (by decide) (by decide) (by decide) (by decide)

theorem mem_intRange (lo hi x : ℤ) : x ∈ intRange lo hi ↔ lo ≤ x ∧ x ≤ hi := by
  unfold intRange
  constructor
  · intro h
    obtain ⟨n, hn, he⟩ := List.mem_map.mp h
    rw [List.mem_range] at hn
    omega
  · intro h
    refine List.mem_map.mpr ⟨(x - lo).toNat, ?_, ?_⟩
    · rw [List.mem_range]; omega
    · omega

theorem mem_cells (r : Region) (c : ℤ × ℤ) :
    c ∈ r.cells ↔ Grid.inRegion r c.1 c.2 = true := by
  obtain ⟨c1, c2⟩ := c
  unfold Region.cells Grid.inRegion
  simp only [List.mem_flatMap, List.mem_map, mem_intRange, Bool.and_eq_true,
    decide_eq_true_eq, ge_iff_le, Prod.mk.injEq]
  constructor
  · rintro ⟨a, ⟨ha1, ha2⟩, rw', ⟨⟨hr1, hr2⟩, rfl, rfl⟩⟩
    exact ⟨⟨⟨ha1, ha2⟩, hr1⟩, hr2⟩
  · rintro ⟨⟨⟨h1, h2⟩, h3⟩, h4⟩
    exact ⟨c1, ⟨h1, h2⟩, c2, ⟨h3, h4⟩, rfl, rfl⟩

theorem intRange_nodup (lo hi : ℤ) : (intRange lo hi).Nodup := by
  unfold intRange
  refine List.Nodup.map ?_ (List.nodup_range _)
  intro a b h
  have h' : lo + (a : ℤ) = lo + (b : ℤ) := h
  omega

theorem cells_nodup (r : Region) : r.cells.Nodup := by
  unfold Region.cells
  rw [List.nodup_flatMap]
  constructor
  · intro a _
    refine List.Nodup.map ?_ (intRange_nodup _ _)
    intro u v h
    simpa using h
  · have h := intRange_nodup r.startCol r.endCol
    refine List.Pairwise.imp ?_ h
    intro a b hab
    intro p hp1 hp2
    simp only [List.mem_map] at hp1 hp2
    obtain ⟨u, _, rfl⟩ := hp1
    obtain ⟨v, _, hv⟩ := hp2
    exact hab (by simpa using congrArg Prod.fst hv.symm)

theorem cells_sub_union_left (a b : Region) (c : ℤ × ℤ)
    (h : Grid.inRegion a c.1 c.2 = true) : c ∈ (Grid._regionUnion a b).cells := by
  rw [mem_cells]
  unfold Grid.inRegion at h ⊢
  unfold Grid._regionUnion
  simp only [Bool.and_eq_true, decide_eq_true_eq, ge_iff_le] at h ⊢
  omega

theorem cells_sub_union_right (a b : Region) (c : ℤ × ℤ)
    (h : Grid.inRegion b c.1 c.2 = true) : c ∈ (Grid._regionUnion a b).cells := by
  rw [mem_cells]
  unfold Grid.inRegion at h ⊢
  unfold Grid._regionUnion
  simp only [Bool.and_eq_true, decide_eq_true_eq, ge_iff_le] at h ⊢
  omega

theorem ranged_cell_row (r : Region) (c : ℤ × ℤ) (hr : Grid.rangedRegion r)
    (hc : Grid.inRegion r c.1 c.2 = true) : 0 ≤ c.2 ∧ c.2 < 1000000000 := by
  unfold Grid.inRegion at hc
  unfold Grid.rangedRegion at hr
  simp only [Bool.and_eq_true, decide_eq_true_eq, ge_iff_le] at hc
  omega

theorem ranged_cells_inj {r1 r2 : Region} {c1 c2 : ℤ × ℤ}
    (h1 : Grid.rangedRegion r1) (h2 : Grid.rangedRegion r2)
    (hc1 : Grid.inRegion r1 c1.1 c1.2 = true) (hc2 : Grid.inRegion r2 c2.1 c2.2 = true)
    (hk : Grid._getBucketId c1.1 c1.2 = Grid._getBucketId c2.1 c2.2) : c1 = c2 := by
  obtain ⟨ha1, ha2⟩ := ranged_cell_row r1 c1 h1 hc1
  obtain ⟨hb1, hb2⟩ := ranged_cell_row r2 c2 h2 hc2
  obtain ⟨e1, e2⟩ := bucketId_inj_of_ranged_rows ha1 ha2 hb1 hb2 hk
  exact Prod.ext e1 e2


theorem swapRemove_perm : ∀ (l : List BRef) (i : Nat), i < l.length →
    (Grid.swapRemove l i).Perm (l.eraseIdx i) := by
  intro l
  induction l with
  | nil => intro i h; simp at h
  | cons x xs ih =>
      intro i hi
      unfold Grid.swapRemove
      cases xs with
      | nil =>
          obtain rfl : i = 0 := Nat.lt_one_iff.mp (by simpa using hi)
          simp
      | cons y ys =>
          have hne : (y :: ys) ≠ [] := by simp
          rw [show (x :: y :: ys).getLast? = some ((y :: ys).getLast hne) from by
            rw [List.getLast?_eq_getLast _ (by simp), List.getLast_cons hne]]
          dsimp only
          cases i with
          | zero =>
              simp only [List.set_cons_zero, List.eraseIdx_cons_zero]
              rw [List.dropLast_cons_of_ne_nil hne]
              calc ((y :: ys).getLast hne :: (y :: ys).dropLast).Perm
                    ((y :: ys).dropLast ++ [(y :: ys).getLast hne]) :=
                      (List.perm_append_singleton _ _).symm
                _ = (y :: ys) := List.dropLast_concat_getLast hne
          | succ j =>
              have hj : j < (y :: ys).length := by
                simpa using Nat.lt_of_succ_lt_succ hi
              rw [List.set_cons_succ, List.eraseIdx_cons_succ]
              have hsetne : (y :: ys).set j ((y :: ys).getLast hne) ≠ [] := by
                intro hcon
                have := congrArg List.length hcon
                simp at this
              rw [List.dropLast_cons_of_ne_nil hsetne]
              refine List.Perm.cons x ?_
              have hihj := ih j hj
              unfold Grid.swapRemove at hihj
              rw [List.getLast?_eq_getLast _ hne] at hihj
              exact hihj

theorem nodup_map_get_not_mem_eraseIdx :
    ∀ (l : List BRef) (i : Nat) (h : i < l.length), (l.map BRef.id).Nodup →
      (l[i].id ∉ (l.eraseIdx i).map BRef.id) := by
  intro l
  induction l with
  | nil => intro i h; simp at h
  | cons x xs ih =>
      intro i h hnd
      cases i with
      | zero =>
          simp only [List.getElem_cons_zero, List.eraseIdx_cons_zero]
          simp only [List.map_cons, List.nodup_cons] at hnd
          exact hnd.1
      | succ j =>
          have hj : j < xs.length := by simpa using Nat.lt_of_succ_lt_succ h
          simp only [List.getElem_cons_succ, List.eraseIdx_cons_succ, List.map_cons]
          simp only [List.map_cons, List.nodup_cons] at hnd
          intro hmem
          rcases List.mem_cons.mp hmem with he | he
          · exact hnd.1 (he ▸ List.mem_map_of_mem BRef.id (List.getElem_mem hj))
          · exact ih j hj hnd.2 he

theorem bucketRemove_bucket_spec (ps : List ((Nat × Nat) × PairRec))
    (bucket : List BRef) (body : BRef) (hnd : (bucket.map BRef.id).Nodup) :
    (((Grid._bucketRemoveBody ps bucket body).2).map BRef.id).Nodup ∧
    body.id ∉ ((Grid._bucketRemoveBody ps bucket body).2).map BRef.id ∧
    (∀ r ∈ (Grid._bucketRemoveBody ps bucket body).2, r ∈ bucket) := by
  unfold Grid._bucketRemoveBody
  dsimp only
  cases hf : bucket.findIdx? (fun x => x.id == body.id) with
  | some i =>
      obtain ⟨hlt, hidx⟩ := List.findIdx?_eq_some_iff_findIdx_eq.mp hf
      have hp : (fun x => x.id == body.id) bucket[i] = true := by
        subst hidx
        exact @List.findIdx_getElem _ (fun x => x.id == body.id) bucket hlt
      have hpe : bucket[i].id = body.id := by simpa using hp
      have hperm := swapRemove_perm bucket i hlt
      have hpm := hperm.map BRef.id
      refine ⟨?_, ?_, ?_⟩
      · exact hpm.nodup_iff.mpr (hnd.sublist ((List.eraseIdx_sublist bucket i).map BRef.id))
      · intro hmem
        rw [hpm.mem_iff] at hmem
        rw [← hpe] at hmem
        exact nodup_map_get_not_mem_eraseIdx bucket i hlt hnd hmem
      · intro r hr
        exact (List.eraseIdx_sublist bucket i).mem (hperm.mem_iff.mp hr)
  | none =>
      have hall := List.findIdx?_eq_none_iff.mp hf
      refine ⟨?_, ?_, ?_⟩
      · exact hnd.sublist ((List.dropLast_sublist bucket).map BRef.id)
      · intro hmem
        rcases List.mem_map.mp hmem with ⟨r, hr, he⟩
        have := hall r (List.mem_of_mem_dropLast hr)
        simp [he] at this
      · intro r hr
        exact List.mem_of_mem_dropLast hr

theorem mayOcc_mono {nr eo : Region} {cr : Bool} {P : List (ℤ × ℤ)} {c c' : ℤ × ℤ}
    (hcc : c' ≠ c)
    (hmay : (Grid.inRegion nr c'.1 c'.2 = true ∧ c' ∈ P) ∨
      (cr = false ∧ Grid.inRegion eo c'.1 c'.2 = true ∧ c' ∉ P)) :
    (Grid.inRegion nr c'.1 c'.2 = true ∧ c' ∈ P ++ [c]) ∨
      (cr = false ∧ Grid.inRegion eo c'.1 c'.2 = true ∧ c' ∉ P ++ [c]) := by
  rcases hmay with ⟨h1, h2⟩ | ⟨h1, h2, h3⟩
  · exact Or.inl ⟨h1, List.mem_append_left _ h2⟩
  · refine Or.inr ⟨h1, h2, ?_⟩
    intro hmem
    rcases List.mem_append.mp hmem with hmem | hmem
    · exact h3 hmem
    · exact hcc (by simpa using hmem)

theorem removeStep_c2 (br : BRef) (nr eo : Region) (cr : Bool)
    (regs : List (Nat × Region)) (P : List (ℤ × ℤ)) (c : ℤ × ℤ) (g : Grid)
    (hmid : Grid.MidInv br.id nr eo cr regs P g) :
    Grid.MidInv br.id nr eo cr regs (P ++ [c])
      (Grid.removeStep br (Grid._getBucketId c.1 c.2) g) := by
  obtain ⟨hdf, hfc, hrg, hcl⟩ := hmid
  cases hb : alookup g.buckets (Grid._getBucketId c.1 c.2) with
  | none =>
      rw [removeStep_none _ _ _ hb]
      refine ⟨hdf, hfc, hrg, ?_⟩
      intro k bk r hk hr
      refine ⟨?_, (hcl k bk r hk hr).2⟩
      intro hid
      obtain ⟨c', hc'id, hmay⟩ := (hcl k bk r hk hr).1 hid
      have hcc : c' ≠ c := by
        intro he
        subst he
        rw [hc'id] at hb
        rw [hb] at hk
        exact Option.noConfusion hk
      exact ⟨c', hc'id, mayOcc_mono hcc hmay⟩
  | some bucket =>
      have hspec := bucketRemove_bucket_spec g.pairs bucket br (hdf _ bucket hb)
      refine ⟨?_, ?_, ?_, ?_⟩
      · intro k bk hk
        rw [removeStep_some_buckets _ _ _ _ hb] at hk
        by_cases hkb : k = Grid._getBucketId c.1 c.2
        · subst hkb
          rw [alookup_aset_self] at hk
          cases Option.some.inj hk
          exact hspec.1
        · rw [alookup_aset_ne _ _ _ _ hkb] at hk
          exact hdf k bk hk
      · intro bk hbk
        rw [(removeStep_misc br _ g).1] at hbk
        exact hfc bk hbk
      · exact (removeStep_misc br _ g).2.1.trans hrg
      · intro k bk r hk hr
        rw [removeStep_some_buckets _ _ _ _ hb] at hk
        by_cases hkb : k = Grid._getBucketId c.1 c.2
        · subst hkb
          rw [alookup_aset_self] at hk
          cases Option.some.inj hk
          refine ⟨?_, ?_⟩
          · intro hid
            exact absurd (hid ▸ List.mem_map_of_mem BRef.id hr) hspec.2.1
          · intro hid
            exact (hcl _ bucket r hb (hspec.2.2 r hr)).2 hid
        · rw [alookup_aset_ne _ _ _ _ hkb] at hk
          refine ⟨?_, (hcl k bk r hk hr).2⟩
          intro hid
          obtain ⟨c', hc'id, hmay⟩ := (hcl k bk r hk hr).1 hid
          have hcc : c' ≠ c := by
            intro he
            subst he
            exact hkb hc'id.symm
          exact ⟨c', hc'id, mayOcc_mono hcc hmay⟩

theorem nodup_ids_append_singleton {bk : List BRef} {b : BRef}
    (hnd : (bk.map BRef.id).Nodup) (hb : b.id ∉ bk.map BRef.id) :
    ((bk ++ [b]).map BRef.id).Nodup := by
  rw [List.map_append]
  rw [List.nodup_append]
  refine ⟨hnd, by simp, ?_⟩
  intro a ha hb'
  have : a = b.id := by simpa using hb'
  subst this
  exact hb ha

theorem addStep_c2 (br : BRef) (nr eo : Region) (cr : Bool)
    (regs : List (Nat × Region)) (P : List (ℤ × ℤ)) (c : ℤ × ℤ) (g : Grid)
    (hcP : c ∉ P) (hnr : Grid.rangedRegion nr) (heo : Grid.rangedRegion eo)
    (hcnew : Grid.inRegion nr c.1 c.2 = true)
    (hcold : cr = false → Grid.inRegion eo c.1 c.2 = false)
    (hmid : Grid.MidInv br.id nr eo cr regs P g) :
    Grid.MidInv br.id nr eo cr regs (P ++ [c])
      (Grid.addStep br (Grid._getBucketId c.1 c.2) g) := by
  obtain ⟨hdf, hfc, hrg, hcl⟩ := hmid
  obtain ⟨bucket0, hself, hcase⟩ := addStep_lookup_self br (Grid._getBucketId c.1 c.2) g
  -- the body is absent from the pre-insertion bucket
  have habs : br.id ∉ bucket0.map BRef.id := by
    rcases hcase with hcase | ⟨hnone, hcase⟩
    · intro hmem
      rcases List.mem_map.mp hmem with ⟨r, hr, hrid⟩
      obtain ⟨c', hc'id, hmay⟩ := (hcl _ bucket0 r hcase hr).1 hrid
      rcases hmay with ⟨h1, h2⟩ | ⟨h1, h2, h3⟩
      · have : c' = c := ranged_cells_inj hnr hnr h1 hcnew hc'id
        subst this
        exact hcP h2
      · have : c' = c := ranged_cells_inj heo hnr h2 hcnew hc'id
        subst this
        rw [hcold h1] at h2
        exact Bool.noConfusion h2
    · rcases hcase with rfl | hcase
      · simp
      · rw [hfc bucket0 hcase]
        simp
  have hnd0 : (bucket0.map BRef.id).Nodup := by
    rcases hcase with hcase | ⟨hnone, hcase⟩
    · exact hdf _ bucket0 hcase
    · rcases hcase with rfl | hcase
      · simp
      · rw [hfc bucket0 hcase]
        simp
  -- clauses of the pre-insertion occupants transfer from g
  have hcl0 : ∀ r ∈ bucket0,
      (r.id = br.id → ∃ c' : ℤ × ℤ, Grid._getBucketId c'.1 c'.2
          = Grid._getBucketId c.1 c.2 ∧
        ((Grid.inRegion nr c'.1 c'.2 = true ∧ c' ∈ P) ∨
          (cr = false ∧ Grid.inRegion eo c'.1 c'.2 = true ∧ c' ∉ P))) ∧
      (r.id ≠ br.id → ∃ R, alookup regs r.id = some R ∧
        ∃ c' ∈ R.cells, Grid._getBucketId c'.1 c'.2 = Grid._getBucketId c.1 c.2) := by
    intro r hr
    rcases hcase with hcase | ⟨hnone, hcase⟩
    · exact hcl _ bucket0 r hcase hr
    · rcases hcase with rfl | hcase
      · simp at hr
      · rw [hfc bucket0 hcase] at hr
        simp at hr
  refine ⟨?_, ?_, ?_, ?_⟩
  · intro k bk hk
    by_cases hkb : k = Grid._getBucketId c.1 c.2
    · subst hkb
      rw [hself] at hk
      cases Option.some.inj hk
      exact nodup_ids_append_singleton hnd0 habs
    · rw [addStep_lookup_ne _ _ _ _ hkb] at hk
      exact hdf k bk hk
  · intro bk hbk
    exact hfc bk (addStep_free_subset br _ g bk hbk)
  · exact (addStep_misc br _ g).1.trans hrg
  · intro k bk r hk hr
    by_cases hkb : k = Grid._getBucketId c.1 c.2
    · subst hkb
      rw [hself] at hk
      cases Option.some.inj hk
      rcases List.mem_append.mp hr with hr | hr
      · refine ⟨?_, (hcl0 r hr).2⟩
        intro hid
        exact absurd (hid ▸ List.mem_map_of_mem BRef.id hr) habs
      · have hrbr : r = br := by simpa using hr
        subst hrbr
        refine ⟨?_, ?_⟩
        · intro _
          exact ⟨c, rfl, Or.inl ⟨hcnew, List.mem_append_right _ (by simp)⟩⟩
        · intro hid
          exact absurd rfl hid
    · rw [addStep_lookup_ne _ _ _ _ hkb] at hk
      refine ⟨?_, (hcl k bk r hk hr).2⟩
      intro hid
      obtain ⟨c', hc'id, hmay⟩ := (hcl k bk r hk hr).1 hid
      have hcc : c' ≠ c := by
        intro he
        subst he
        exact hkb hc'id.symm
      exact ⟨c', hc'id, mayOcc_mono hcc hmay⟩

theorem midInv_extend (x : Nat) (nr eo : Region) (cr : Bool)
    (regs : List (Nat × Region)) (P : List (ℤ × ℤ)) (c : ℤ × ℤ) (g : Grid)
    (hcP : c ∉ P)
    (hnotR : (!Grid.inRegion nr c.1 c.2 && Grid.inRegion eo c.1 c.2) = false)
    (hmid : Grid.MidInv x nr eo cr regs P g) :
    Grid.MidInv x nr eo cr regs (P ++ [c]) g := by
  obtain ⟨hdf, hfc, hrg, hcl⟩ := hmid
  refine ⟨hdf, hfc, hrg, ?_⟩
  intro k bk r hk hr
  refine ⟨?_, (hcl k bk r hk hr).2⟩
  intro hid
  obtain ⟨c', hc'id, hmay⟩ := (hcl k bk r hk hr).1 hid
  by_cases hcc : c' = c
  · subst hcc
    rcases hmay with ⟨h1, h2⟩ | ⟨h1, h2, h3⟩
    · exact absurd h2 hcP
    · have hnew : Grid.inRegion nr c'.1 c'.2 = true := by
        cases hn : Grid.inRegion nr c'.1 c'.2 with
        | true => rfl
        | false =>
            rw [hn, h2] at hnotR
            exact Bool.noConfusion hnotR
      exact ⟨c', hc'id, Or.inl ⟨hnew, List.mem_append_right _ (by simp)⟩⟩
  · exact ⟨c', hc'id, mayOcc_mono hcc hmay⟩

theorem cellStep_c2 (br : BRef) (nr eo : Region) (cr : Bool)
    (regs : List (Nat × Region)) (P : List (ℤ × ℤ)) (c : ℤ × ℤ) (g : Grid)
    (hnr : Grid.rangedRegion nr) (heo : Grid.rangedRegion eo)
    (hcr : cr = true → eo = nr)
    (hcrin : cr = true → Grid.inRegion nr c.1 c.2 = true)
    (hcP : c ∉ P)
    (hmid : Grid.MidInv br.id nr eo cr regs P g) :
    Grid.MidInv br.id nr eo cr regs (P ++ [c])
      (Grid.cellStep br nr eo cr false g c) := by
  simp only [Grid.cellStep]
  split_ifs with hc1 hc2 hc3
  · exfalso
    rw [Bool.and_eq_true, Bool.not_eq_true'] at hc2
    rcases (by simpa using hc1 :
        cr = true ∨ (Grid.inRegion nr c.1 c.2 = true
          ∧ Grid.inRegion eo c.1 c.2 = false)) with hcru | ⟨hn, _⟩
    · rw [hcr hcru] at hc2
      rw [hc2.1] at hc2
      exact Bool.noConfusion hc2.2
    · rw [hn] at hc2
      exact Bool.noConfusion hc2.1
  · have hcnew : Grid.inRegion nr c.1 c.2 = true := by
      rcases (by simpa using hc1 :
          cr = true ∨ (Grid.inRegion nr c.1 c.2 = true
            ∧ Grid.inRegion eo c.1 c.2 = false)) with hcru | ⟨hn, _⟩
      · exact hcrin hcru
      · exact hn
    have hcold : cr = false → Grid.inRegion eo c.1 c.2 = false := by
      intro hcrf
      rcases (by simpa using hc1 :
          cr = true ∨ (Grid.inRegion nr c.1 c.2 = true
            ∧ Grid.inRegion eo c.1 c.2 = false)) with hcru | ⟨_, ho⟩
      · rw [hcrf] at hcru
        exact Bool.noConfusion hcru
      · exact ho
    exact addStep_c2 br nr eo cr regs P c g hcP hnr heo hcnew hcold hmid
  · exact removeStep_c2 br nr eo cr regs P c g hmid
  · exact midInv_extend br.id nr eo cr regs P c g hcP (Bool.not_eq_true _ ▸ hc3) hmid

theorem foldl_cellStep_c2 (br : BRef) (nr eo : Region) (cr : Bool)
    (regs : List (Nat × Region))
    (hnr : Grid.rangedRegion nr) (heo : Grid.rangedRegion eo)
    (hcr : cr = true → eo = nr) :
    ∀ (suffix P : List (ℤ × ℤ)) (g : Grid),
      (P ++ suffix).Nodup →
      (cr = true → ∀ c ∈ suffix, Grid.inRegion nr c.1 c.2 = true) →
      Grid.MidInv br.id nr eo cr regs P g →
      Grid.MidInv br.id nr eo cr regs (P ++ suffix)
        (suffix.foldl (Grid.cellStep br nr eo cr false) g) := by
  intro suffix
  induction suffix with
  | nil =>
      intro P g _ _ h
      simpa using h
  | cons c rest ih =>
      intro P g hnd hin h
      have hcP : c ∉ P := by
        intro hm
        rw [List.nodup_append] at hnd
        exact hnd.2.2 hm (List.mem_cons_self _ _)
      have hstep := cellStep_c2 br nr eo cr regs P c g hnr heo hcr
        (fun hcru => hin hcru c (List.mem_cons_self _ _)) hcP h
      have hnd' : ((P ++ [c]) ++ rest).Nodup := by
        simpa [List.append_assoc] using hnd
      have hres := ih (P ++ [c]) _ hnd'
        (fun hcru c' hc' => hin hcru c' (List.mem_cons_of_mem _ hc')) hstep
      simp only [List.foldl_cons]
      simpa [List.append_assoc] using hres

theorem midInv_init_none (x : Nat) (nr : Region) (g : Grid)
    (hg : Grid.GridInv g) (hnone : alookup g.regions x = none) :
    Grid.MidInv x nr nr true g.regions [] g := by
  obtain ⟨hdf, hco, hrr, hfc⟩ := hg
  refine ⟨hdf, hfc, rfl, ?_⟩
  intro k bk r hk hr
  refine ⟨?_, ?_⟩
  · intro hid
    obtain ⟨R, hR, _⟩ := hco k bk r hk hr
    rw [hid, hnone] at hR
    exact Option.noConfusion hR
  · intro _
    exact hco k bk r hk hr

theorem midInv_init_some (x : Nat) (nr oldR : Region) (g : Grid)
    (hg : Grid.GridInv g) (hsome : alookup g.regions x = some oldR) :
    Grid.MidInv x nr oldR false g.regions [] g := by
  obtain ⟨hdf, hco, hrr, hfc⟩ := hg
  refine ⟨hdf, hfc, rfl, ?_⟩
  intro k bk r hk hr
  refine ⟨?_, ?_⟩
  · intro hid
    obtain ⟨R, hR, c', hc', hcid⟩ := hco k bk r hk hr
    rw [hid, hsome] at hR
    cases Option.some.inj hR
    refine ⟨c', hcid, Or.inr ⟨rfl, (mem_cells _ _).mp hc', by simp⟩⟩
  · intro _
    exact hco k bk r hk hr

theorem gridInv_assemble (x : Nat) (nr eo : Region) (cr : Bool)
    (regs : List (Nat × Region)) (Pend : List (ℤ × ℤ)) (g' : Grid)
    (hnr : Grid.rangedRegion nr)
    (hregs : ∀ i R, alookup regs i = some R → Grid.rangedRegion R)
    (hcover : ∀ c' : ℤ × ℤ, Grid.inRegion eo c'.1 c'.2 = true → c' ∈ Pend)
    (hmid : Grid.MidInv x nr eo cr regs Pend g') :
    Grid.GridInv { g' with regions := aset g'.regions x nr } := by
  obtain ⟨hdf, hfc, hrg, hcl⟩ := hmid
  refine ⟨?_, ?_, ?_, ?_⟩
  · intro k bk hk
    exact hdf k bk hk
  · intro k bk r hk hr
    by_cases hid : r.id = x
    · obtain ⟨c', hc'id, hmay⟩ := (hcl k bk r hk hr).1 hid
      have hc'new : Grid.inRegion nr c'.1 c'.2 = true := by
        rcases hmay with ⟨h1, _⟩ | ⟨_, h2, h3⟩
        · exact h1
        · exact absurd (hcover c' h2) h3
      refine ⟨nr, ?_, ⟨c', (mem_cells nr c').mpr hc'new, hc'id⟩⟩
      have : alookup (aset regs x nr) r.id = some nr := by
        rw [hid]
        exact alookup_aset_self _ _ _
      rw [← hrg] at this
      exact this
    · obtain ⟨R, hR, hc⟩ := (hcl k bk r hk hr).2 hid
      refine ⟨R, ?_, hc⟩
      have : alookup (aset regs x nr) r.id = some R := by
        rw [alookup_aset_ne _ _ _ _ hid]
        exact hR
      rw [← hrg] at this
      exact this
  · intro i R hR
    have hR' : alookup (aset regs x nr) i = some R := by
      rw [← hrg]
      exact hR
    by_cases hix : i = x
    · subst hix
      rw [alookup_aset_self] at hR'
      cases Option.some.inj hR'
      exact hnr
    · rw [alookup_aset_ne _ _ _ _ hix] at hR'
      exact hregs i R hR'
  · intro bk hbk
    exact hfc bk hbk

theorem updateBody_c2 (w : World) (g : Grid) (b : Body)
    (hg : Grid.GridInv g) (hb : Grid.rangedRegion (Grid._getRegion g b)) :
    Grid.GridInv (Grid.updateBody w false g b).1 := by
  unfold Grid.updateBody
  split_ifs with h1 h2
  · exact hg
  · exact hg
  · dsimp only
    split_ifs with h3 h4
    · have hnone : alookup g.regions b.id = none := by
        rcases h4 with h | h
        · exact h
        · exact absurd h (by simp)
      rw [hnone]
      simp only [Option.getD_none, decide_True]
      have hmid' := foldl_cellStep_c2 b.ref (Grid._getRegion g b) (Grid._getRegion g b)
        true g.regions hb hb (fun _ => rfl) (Grid._getRegion g b).cells [] g
        (by simpa using cells_nodup _)
        (fun _ c hc => (mem_cells _ _).mp hc)
        (midInv_init_none b.id (Grid._getRegion g b) g hg hnone)
      simp only [List.nil_append] at hmid'
      exact gridInv_assemble b.id (Grid._getRegion g b) (Grid._getRegion g b) true
        g.regions (Grid._getRegion g b).cells _ hb hg.2.2.1
        (fun c' hc' => (mem_cells _ _).mpr hc') hmid'
    · cases hOld : alookup g.regions b.id with
      | none => exact absurd (Or.inl hOld) h4
      | some oldR =>
          simp only [Option.getD_some]
          rw [show decide ((some oldR : Option Region) = none) = false from by simp]
          have hOldRanged : Grid.rangedRegion oldR := hg.2.2.1 b.id oldR hOld
          have hmid' := foldl_cellStep_c2 b.ref (Grid._getRegion g b) oldR false
            g.regions hb hOldRanged (fun h => Bool.noConfusion h)
            (Grid._regionUnion (Grid._getRegion g b) oldR).cells [] g
            (by simpa using cells_nodup _)
            (fun h => absurd h (by simp))
            (midInv_init_some b.id (Grid._getRegion g b) oldR g hg hOld)
          simp only [List.nil_append] at hmid'
          exact gridInv_assemble b.id (Grid._getRegion g b) oldR false g.regions
            (Grid._regionUnion (Grid._getRegion g b) oldR).cells _ hb hg.2.2.1
            (fun c' hc' => cells_sub_union_right _ _ c' hc') hmid'
    · exact hg

theorem getRegion_congr (g1 g2 : Grid) (b : Body) (hw : g1.bucketWidth = g2.bucketWidth)
    (hh : g1.bucketHeight = g2.bucketHeight) :
    Grid._getRegion g1 b = Grid._getRegion g2 b := by
  unfold Grid._getRegion
  rw [hw, hh]

theorem updatePhase_go_c2 (w : World) :
    ∀ (bodies : List Body) (acc : Grid × Bool),
      Grid.GridInv acc.1 →
      (∀ b ∈ bodies, Grid.rangedRegion (Grid._getRegion acc.1 b)) →
      Grid.GridInv ((bodies.foldl (fun acc b =>
          let r := Grid.updateBody w false acc.1 b
          (r.1, acc.2 || r.2)) acc).1) := by
  intro bodies
  induction bodies with
  | nil => intro acc h _; exact h
  | cons b rest ih =>
      intro acc h hranged
      simp only [List.foldl_cons]
      refine ih _ (updateBody_c2 w acc.1 b h (hranged b (List.mem_cons_self _ _))) ?_
      intro b' hb'
      rw [getRegion_congr _ acc.1 b' (updateBody_wlh w false acc.1 b).2.1
        (updateBody_wlh w false acc.1 b).2.2]
      exact hranged b' (List.mem_cons_of_mem _ hb')

theorem update_c2 (g : Grid) (bodies : List Body) (w : World)
    (hg : Grid.GridInv g)
    (hb : ∀ b ∈ bodies, Grid.rangedRegion (Grid._getRegion g b)) :
    Grid.GridInv (Grid.update g bodies w false) := by
  have hph := updatePhase_go_c2 w bodies (g, false) hg hb
  unfold Grid.update
  dsimp only
  split_ifs with hc
  · exact hph
  · exact hph

theorem clear_c2 (g : Grid) (hg : Grid.GridInv g) : Grid.GridInv (Grid.clear g) := by
  obtain ⟨hdf, hco, hrr, hfc⟩ := hg
  have hfold := clear_fold g.buckets g.freeBuckets
  have hbuckets : (Grid.clear g).buckets = [] := by
    unfold Grid.clear
    rw [hfold]
  have hfree : (Grid.clear g).freeBuckets
      = g.freeBuckets ++ List.replicate g.buckets.length [] := by
    unfold Grid.clear
    rw [hfold]
  refine ⟨?_, ?_, ?_, ?_⟩
  · intro k bk hk
    rw [hbuckets] at hk
    exact Option.noConfusion hk
  · intro k bk r hk hr
    rw [hbuckets] at hk
    exact Option.noConfusion hk
  · intro i R hR
    exact hrr i R hR
  · intro bk hbk
    rw [hfree] at hbk
    rcases List.mem_append.mp hbk with hbk | hbk
    · exact hfc bk hbk
    · exact List.eq_of_mem_replicate hbk

theorem gridInv_create : Grid.GridInv Grid.create := by
  refine ⟨?_, ?_, ?_, ?_⟩
  · intro k bk hk
    exact Option.noConfusion hk
  · intro k bk r hk hr
    exact Option.noConfusion hk
  · intro i R hR
    exact Option.noConfusion hR
  · intro bk hbk
    simp [Grid.create] at hbk

theorem gridInv_of_cleanReachable : ∀ g : Grid, Grid.CleanReachable g → Grid.GridInv g := by
  intro g h
  induction h with
  | init => exact gridInv_create
  | step g bodies w hr hranged ih => exact update_c2 g bodies w ih hranged
  | stepClear g hr ih => exact clear_c2 g ih

/-- C2 (amended): in every grid state reachable from a fresh grid by
updates with forceUpdate false (on bodies whose regions keep their rows in
the range where bucket ids are injective) and by clears, every bucket
contains at most one reference to any given body id.  A forced update of
a body already occupying cells of its unchanged region appends a second
reference instead (see the counterexample). -/
theorem bucket_at_most_one_reference (g : Grid) (h : Grid.CleanReachable g) :
    Grid.bucketsDupFree g :=
  (gridInv_of_cleanReachable g h).1

theorem bucket_at_most_one_reference_witness :
    Grid.bucketsDupFree (Grid.update Grid.create [c2X] wBig false) :=
  bucket_at_most_one_reference _
    (Grid.CleanReachable.step Grid.create [c2X] wBig Grid.CleanReachable.init (by
      intro b hb
      have hbe : b = c2X := by simpa using hb
      subst hbe
      exact ⟨by decide, by decide⟩))
